import Mathlib

/-!
Shallow embedding of the Uniswap V3 action provider
(src/coinbase_agentkit/action_providers/uniswap_v3/): the unit-conversion
helpers of utils.py and the two request handlers of
uniswap_v3_action_provider.py.  The injected wallet provider is modelled
as an oracle of external-call results; Python ints are unbounded and are
modelled as Nat/Int.  CPython binary64 float arithmetic (in
calculate_slippage_amounts and the spot-price formula) is modelled over
exact rationals; every concrete input used to settle a claim is one where
the binary64 computation is exact, so the rational model coincides with
the code there.
-/

/-! ### Decimal digit strings -/

-- Numeric value of an ASCII digit character.
def digitVal (c : Char) : ℕ := c.toNat - 48

-- ASCII decimal digit test: 48 <= toNat <= 57.
def isDig (c : Char) : Bool := decide (47 < c.toNat) && decide (c.toNat < 58)

-- Value of a most-significant-digit-first digit string.
def natOfDigits (l : List Char) : ℕ := l.foldl (fun n c => 10 * n + digitVal c) 0

-- The ASCII character of a single decimal digit.
def digitToChar : ℕ → Char
  | 0 => '0' | 1 => '1' | 2 => '2' | 3 => '3' | 4 => '4'
  | 5 => '5' | 6 => '6' | 7 => '7' | 8 => '8' | _ => '9'

-- Little-endian digit characters of n, with explicit fuel (n+1 is enough).
def natDigitsRevAux : ℕ → ℕ → List Char
  | 0, _ => []
  | b + 1, n => if n = 0 then [] else digitToChar (n % 10) :: natDigitsRevAux b (n / 10)

-- Most-significant-first decimal digit characters of n ([] for n = 0).
def natDigitsChars (n : ℕ) : List Char := (natDigitsRevAux (n + 1) n).reverse

/-! ### Model of Python `int(str)` on the strings this module feeds it.
Python's `int` also tolerates surrounding whitespace and underscores
between digits; the embedding models the plain `[sign]digits` forms,
which cover every string the handlers construct and every input used by
the claims. -/

-- Digit-only string to Nat; none models a ValueError from Python int().
def digitsToNat (l : List Char) : Option ℕ :=
  if l ≠ [] ∧ l.all isDig then some (natOfDigits l) else none

-- Model of Python int() on a character list: optional sign, then digits.
def pyIntParse (l : List Char) : Option ℤ :=
  match l with
  | [] => none
  | c :: r =>
    if c = '-' then (digitsToNat r).map (fun n : ℕ => -(n : ℤ))
    else if c = '+' then (digitsToNat r).map (fun n : ℕ => (n : ℤ))
    else (digitsToNat (c :: r)).map (fun n : ℕ => (n : ℤ))

-- Model of str.split(".") on character lists.
def splitDot : List Char → List (List Char)
  | [] => [[]]
  | c :: r =>
    if c = '.' then [] :: splitDot r
    else
      match splitDot r with
      | [] => [[c]]
      | h :: t => (c :: h) :: t

-- Split at the first exponent marker, returning (mantissa, rest-after-marker).
def splitExp : List Char → List Char × Option (List Char)
  | [] => ([], none)
  | c :: r =>
    if c = 'e' ∨ c = 'E' then ([], some r)
    else
      let p := splitExp r
      (c :: p.1, p.2)

-- Strip a leading sign, returning the sign as a rational factor.
def stripSign (l : List Char) : ℚ × List Char :=
  match l with
  | [] => (1, [])
  | c :: r =>
    if c = '-' then (-1, r)
    else if c = '+' then (1, r)
    else (1, c :: r)

-- Parse the exponent field of an exponential literal: [sign]digits.
def parseExpPart (l : List Char) : Option ℤ :=
  match l with
  | [] => none
  | c :: r =>
    if c = '-' then (digitsToNat r).map (fun n : ℕ => -(n : ℤ))
    else if c = '+' then (digitsToNat r).map (fun n : ℕ => (n : ℤ))
    else (digitsToNat (c :: r)).map (fun n : ℕ => (n : ℤ))

-- Parse an unsigned coefficient: digits, digits.digits, .digits or digits.
def parseMantissa (l : List Char) : Option ℚ :=
  match splitDot l with
  | [w] => if w ≠ [] ∧ w.all isDig then some ((natOfDigits w : ℚ)) else none
  | [w, f] =>
    if (w ≠ [] ∨ f ≠ []) ∧ w.all isDig ∧ f.all isDig then
      some ((natOfDigits w : ℚ) + (natOfDigits f : ℚ) / 10 ^ f.length)
    else none
  | _ => none

/-- Value of a finite decimal or exponential numeral, the grammar accepted
by Python's Decimal constructor restricted to finite numerals without
underscores or padding (the only forms this module produces or the claims
exercise); also serves as the specification-side reading of what numeric
value a produced string represents. -/
def parseDecimalLit (l : List Char) : Option ℚ :=
  let p := stripSign l
  let q := splitExp p.2
  match parseMantissa q.1 with
  | none => none
  | some m =>
    match q.2 with
    | none => some (p.1 * m)
    | some ex =>
      match parseExpPart ex with
      | none => none
      | some e => some (p.1 * m * (10 : ℚ) ^ e)

-- Truncation toward zero, the behaviour of Python int() on a number.
def ratTrunc (q : ℚ) : ℤ := if 0 ≤ q then ⌊q⌋ else ⌈q⌉

/-- utils.format_amount_with_decimals: parse a human-readable amount
string into atomic units.  A string containing an exponent marker is
routed through Decimal (modelled by parseDecimalLit over exact rationals,
which coincides with the 28-significant-digit Decimal context whenever the
mantissa has at most 28 significant digits); otherwise the string is split
on "." and each part goes through int().  none models the raised
"Invalid amount format" ValueError (and, for the exponential branch, the
InvalidOperation raised by the Decimal constructor). -/
def format_amount_with_decimals (amount : String) (decimals : ℕ) : Option ℤ :=
  let l := amount.data
  if l.any (fun c => c = 'e' ∨ c = 'E') then
    (parseDecimalLit l).map (fun v => ratTrunc (v * 10 ^ decimals))
  else
    match splitDot l with
    | [w] => (pyIntParse w).map (fun wi => wi * 10 ^ decimals)
    | [w, f] =>
      match pyIntParse w with
      | none => none
      | some wi =>
        let f' := if decimals < f.length then f.take decimals
                  else f ++ List.replicate (decimals - f.length) '0'
        match pyIntParse f' with
        | none => none
        | some fi => some (wi * 10 ^ decimals + fi)
    | _ => none

-- Strip up to b factors of 10 from n, returning (reduced value, strips).
def stripZeros : ℕ → ℕ → ℕ × ℕ
  | 0, n => (n, 0)
  | b + 1, n =>
    if n % 10 = 0 ∧ n ≠ 0 then
      ((stripZeros b (n / 10)).1, (stripZeros b (n / 10)).2 + 1)
    else (n, 0)

-- Render the exact decimal value c * 10^(-k) (c > 0) the way str(Decimal)
-- does: positionally while the adjusted exponent is at least -6, in
-- scientific notation below that.
def renderCore (c k : ℕ) : List Char :=
  if k = 0 then natDigitsChars c
  else if (-6 : ℤ) ≤ ((natDigitsChars c).length : ℤ) - 1 - (k : ℤ) then
    if k < (natDigitsChars c).length then
      (natDigitsChars c).take ((natDigitsChars c).length - k) ++
        '.' :: (natDigitsChars c).drop ((natDigitsChars c).length - k)
    else '0' :: '.' :: (List.replicate (k - (natDigitsChars c).length) '0' ++ natDigitsChars c)
  else
    (match natDigitsChars c with
     | [] => []
     | c0 :: rest => if rest.isEmpty then [c0] else c0 :: '.' :: rest)
      ++ 'E' :: '-' :: natDigitsChars (k - ((natDigitsChars c).length - 1))

-- Strip every trailing occurrence of ch, modelling str.rstrip(ch).
def rstripChar (ch : Char) (l : List Char) : List Char :=
  (l.reverse.dropWhile (fun c => c = ch)).reverse

-- The final line of format_amount_from_decimals:
-- s.rstrip("0").rstrip(".") if "." in s else s.
def pyRstrip (l : List Char) : List Char :=
  if '.' ∈ l then rstripChar '.' (rstripChar '0' l) else l

/-- utils.format_amount_from_decimals: str(Decimal(amount) / 10**decimals)
followed by `s.rstrip("0").rstrip(".") if "." in s else s`.  The division
is exact whenever |amount| has at most 28 significant digits, which is
the regime the embedding models: the exact quotient is written with its
exponent as close to the ideal exponent 0 as possible (trailing zeros
stripped up to `decimals` of them), rendered positionally when the
adjusted exponent is at least -6 and in scientific notation below that,
exactly as the decimal arithmetic specification prescribes.  The trailing
rstrip is the identity on positional output (the reduced coefficient ends
in a nonzero digit) and on scientific output with a single-digit mantissa
(no dot), but on scientific output with a dotted mantissa it strips
trailing zeros OF THE EXPONENT, e.g. turning "1.5E-10" into "1.5E-1" --
a corruption of the value that the code really exhibits. -/
def format_amount_from_decimals (amount : ℤ) (decimals : ℕ) : String :=
  if amount = 0 then "0"
  else
    String.mk (pyRstrip ((if amount < 0 then ['-'] else []) ++
      renderCore (stripZeros decimals amount.natAbs).1
        (decimals - (stripZeros decimals amount.natAbs).2)))

/-- utils.calculate_slippage_amounts: int(amount * (1 - slippage/100)).
The Python code computes with binary64 floats; the embedding computes the
same expression over exact rationals and truncates toward zero as int()
does.  The two agree at every input where the float computation is exact,
in particular at every concrete input used by the claims. -/
def calculate_slippage_amounts (amount : ℤ) (slippage_percentage : ℚ) : ℤ :=
  ratTrunc ((amount : ℚ) * (1 - slippage_percentage / 100))

/-! ### Tick alignment and fee tiers (create_liquidity, lines 211-234) -/

-- One tick rounded with Python floor division: (tick // spacing) * spacing.
def round_tick (tick spacing : ℤ) : ℤ := Int.fdiv tick spacing * spacing

-- Round both ticks down, then force the upper strictly above the lower.
def align_ticks (tick_lower tick_upper spacing : ℤ) : ℤ × ℤ :=
  let lo := round_tick tick_lower spacing
  let hi := round_tick tick_upper spacing
  if hi ≤ lo then (lo, lo + spacing) else (lo, hi)

-- Tick spacing and effective fee tier for a requested fee tier.
def tick_spacing_for_fee (fee_tier : ℤ) : ℤ × ℤ :=
  if fee_tier = 500 then (10, 500)
  else if fee_tier = 3000 then (60, 3000)
  else if fee_tier = 10000 then (200, 10000)
  else (10, 500)

/-! ### Constants (constants.py), checksummed as Web3.to_checksum_address
produces them. -/

def POSITION_MANAGER_ADDRESS : String := "0xC36442b4a4522E871399CD717aBDD847Ab11FE88"

def WETH_ADDRESS : String := "0xC02aaa39b223FE8D0A0e5C4F27eAD9083C756Cc2"

def USDC_ADDRESS : String := "0xA0b86991c6218b36c1d19D4a2e9Eb0cE3606eB48"

def FACTORY_ADDRESS : String := "0x1F98431c8aD98523631AE4a59f267346ea31F984"

def ZERO_ADDRESS : String := "0x0000000000000000000000000000000000000000"

-- POSITION_MANAGER_ADDRESSES dict: ethereum-mainnet only.
def position_manager_table (network_id : String) : Option String :=
  if network_id = "ethereum-mainnet" then some POSITION_MANAGER_ADDRESS else none

-- ASSET_ADDRESSES dict: ethereum-mainnet with weth and usdc entries.
def asset_address_table (network_id asset : String) : Option String :=
  if network_id = "ethereum-mainnet" then
    if asset = "weth" then some WETH_ADDRESS
    else if asset = "usdc" then some USDC_ADDRESS
    else none
  else none

-- ASSET_DECIMALS dict: weth 18, usdc 6 (no other key is ever looked up).
def ASSET_DECIMALS (asset : String) : ℕ :=
  if asset = "weth" then 18 else if asset = "usdc" then 6 else 0

-- UNISWAP_V3_FACTORY_ADDRESS dict: ethereum-mainnet only.
def factory_address_table (network_id : String) : Option String :=
  if network_id = "ethereum-mainnet" then some FACTORY_ADDRESS else none

/-! ### Network and provider oracle -/

structure Network where
  protocol_family : String
  chain_id : String
  network_id : String
deriving DecidableEq

/-- UniswapV3ActionProvider.supports_network: EVM family and Ethereum
mainnet by chain id "1" or by one of two network-id spellings. -/
def supports_network (n : Network) : Bool :=
  (n.protocol_family == "evm") &&
    ((n.chain_id == "1") || (n.network_id == "mainnet") || (n.network_id == "ethereum-mainnet"))

/-- _get_position_manager_address: chain id "1" short-circuits to the
ethereum-mainnet entry; otherwise the dict is keyed by network id, a miss
raising ValueError (modelled by the error message). -/
def get_position_manager_address (n : Network) : Except String String :=
  if n.chain_id = "1" then Except.ok POSITION_MANAGER_ADDRESS
  else
    match position_manager_table n.network_id with
    | some a => Except.ok a
    | none => Except.error ("No Position Manager address available for network " ++ n.network_id)

/-- _get_asset_address: chain id "1" uses the ethereum-mainnet entry,
otherwise the network-id entry; a KeyError becomes the ValueError text. -/
def get_asset_address (n : Network) (asset : String) : Except String String :=
  if n.chain_id = "1" then
    match asset_address_table "ethereum-mainnet" asset with
    | some a => Except.ok a
    | none => Except.error ("Asset " ++ asset ++ " not supported on " ++ n.network_id)
  else
    match asset_address_table n.network_id asset with
    | some a => Except.ok a
    | none => Except.error ("Asset " ++ asset ++ " not supported on " ++ n.network_id)

instance {ε α : Type} [DecidableEq ε] [DecidableEq α] : DecidableEq (Except ε α) := fun x y =>
  match x, y with
  | Except.error a, Except.error b =>
    if h : a = b then isTrue (by rw [h]) else isFalse (fun hc => h (by cases hc; rfl))
  | Except.error _, Except.ok _ => isFalse (fun hc => Except.noConfusion hc)
  | Except.ok _, Except.error _ => isFalse (fun hc => Except.noConfusion hc)
  | Except.ok a, Except.ok b =>
    if h : a = b then isTrue (by rw [h]) else isFalse (fun hc => h (by cases hc; rfl))

-- One receipt log entry: emitting address and topics (topics as numbers).
structure LogEntry where
  address : String
  topics : List ℕ
deriving DecidableEq

structure Receipt where
  status : ℤ
  logs : List LogEntry
deriving DecidableEq

-- The transactions create_liquidity can submit, in submission order.
inductive TxKind where
  | approveWeth
  | approveUsdc
  | mint
deriving DecidableEq

/-- Behaviour of the injected wallet provider as seen by create_liquidity:
the network, the two balanceOf reads (an error models a raised exception),
and the outcome of each transaction step (approve_token submits and waits
for the receipt as one step; mint submission and its receipt are separate
as in the code). -/
structure LiquidityOracle where
  network : Network
  wethBalance : Except String ℤ
  usdcBalance : Except String ℤ
  approveWeth : Except String String
  approveUsdc : Except String String
  mintSend : Except String String
  mintReceipt : Except String Receipt
deriving DecidableEq

/-- Behaviour of the wallet provider as seen by get_price: the network,
the factory getPool read and the pool slot0 read (sqrtPriceX96, tick). -/
structure PriceOracle where
  network : Network
  getPool : Except String String
  slot0 : Except String (ℤ × ℤ)
deriving DecidableEq

-- Validated CreateLiquiditySchema input.
structure CreateArgs where
  amount_weth : String
  amount_usdc : String
  tick_lower : ℤ
  tick_upper : ℤ
  fee_tier : ℤ
  slippage : ℚ
deriving DecidableEq

-- Result of a handler run: the returned-or-raised outcome (an `error`
-- models an exception escaping the handler) plus the submitted-tx trace.
structure HandlerOut where
  result : Except String String
  txs : List TxKind
deriving DecidableEq

-- Result of a get_price run, recording whether slot0 was ever consulted.
structure PriceOut where
  result : Except String String
  slot0_called : Bool
deriving DecidableEq

-- The fixed remediation hint appended to create_liquidity error returns.
def tickHint : String :=
  "\nTry using ticks that align with 0.05% fee tier spacing (10): tickLower=202540, tickUpper=202640"

-- The string returned by every except-branch of create_liquidity.
def liqErr (e : String) : String :=
  "Error creating Uniswap V3 liquidity position: " ++ e ++ tickHint

/-! ### create_liquidity (uniswap_v3_action_provider.py lines 109-324) -/

/-- Body of create_liquidity before the outermost except clause: every
step in source order.  The second pair of balance reads inside the first
approval try block returns the same oracle values as the first pair and
cannot fail anew, so it is not repeated here. -/
def create_liquidity_body (args : CreateArgs) (o : LiquidityOracle) : HandlerOut :=
  if supports_network o.network = false then
    ⟨Except.ok ("Error: Network " ++ o.network.network_id ++ " is not supported by Uniswap V3"),
      []⟩
  else
    match get_position_manager_address o.network with
    | Except.error e =>
      ⟨Except.ok ("Error: Could not get Uniswap V3 Position Manager address for " ++
        o.network.network_id ++ ": " ++ e), []⟩
    | Except.ok pm =>
      match get_asset_address o.network "weth" with
      | Except.error e => ⟨Except.ok ("Error: " ++ e), []⟩
      | Except.ok _ =>
        match get_asset_address o.network "usdc" with
        | Except.error e => ⟨Except.ok ("Error: " ++ e), []⟩
        | Except.ok _ =>
          match format_amount_with_decimals args.amount_weth (ASSET_DECIMALS "weth") with
          | none => ⟨Except.error ("Invalid amount format: " ++ args.amount_weth), []⟩
          | some amount_weth_units =>
            match format_amount_with_decimals args.amount_usdc (ASSET_DECIMALS "usdc") with
            | none => ⟨Except.error ("Invalid amount format: " ++ args.amount_usdc), []⟩
            | some amount_usdc_units =>
              match o.wethBalance with
              | Except.error e => ⟨Except.error ("Could not get token balance: " ++ e), []⟩
              | Except.ok weth_balance =>
                match o.usdcBalance with
                | Except.error e => ⟨Except.error ("Could not get token balance: " ++ e), []⟩
                | Except.ok usdc_balance =>
                  if weth_balance < amount_weth_units then
                    ⟨Except.ok ("Error: Insufficient WETH balance. You have " ++
                      format_amount_from_decimals weth_balance (ASSET_DECIMALS "weth") ++
                      " WETH, but need " ++ args.amount_weth ++ " WETH"), []⟩
                  else if usdc_balance < amount_usdc_units then
                    ⟨Except.ok ("Error: Insufficient USDC balance. You have " ++
                      format_amount_from_decimals usdc_balance (ASSET_DECIMALS "usdc") ++
                      " USDC, but need " ++ args.amount_usdc ++ " USDC"), []⟩
                  else
                    let _amount_weth_min := calculate_slippage_amounts amount_weth_units args.slippage
                    let _amount_usdc_min := calculate_slippage_amounts amount_usdc_units args.slippage
                    match o.approveWeth with
                    | Except.error e => ⟨Except.ok (liqErr e), [TxKind.approveWeth]⟩
                    | Except.ok _ =>
                      match o.approveUsdc with
                      | Except.error e =>
                        ⟨Except.ok (liqErr e), [TxKind.approveWeth, TxKind.approveUsdc]⟩
                      | Except.ok _ =>
                        let sf := tick_spacing_for_fee args.fee_tier
                        let lu := align_ticks args.tick_lower args.tick_upper sf.1
                        match o.mintSend with
                        | Except.error e =>
                          ⟨Except.ok (liqErr e),
                            [TxKind.approveWeth, TxKind.approveUsdc, TxKind.mint]⟩
                        | Except.ok tx_hash =>
                          match o.mintReceipt with
                          | Except.error e =>
                            ⟨Except.ok (liqErr e),
                              [TxKind.approveWeth, TxKind.approveUsdc, TxKind.mint]⟩
                          | Except.ok receipt =>
                            if receipt.status ≠ 1 then
                              ⟨Except.ok ("Error: Liquidity position creation failed. Transaction hash: "
                                ++ tx_hash),
                                [TxKind.approveWeth, TxKind.approveUsdc, TxKind.mint]⟩
                            else
                              let found := receipt.logs.find? (fun lg =>
                                (lg.address.toLower == pm.toLower) && decide (3 < lg.topics.length))
                              let token_id := found.map (fun lg => lg.topics.getD 3 0)
                              let token_id_msg :=
                                match token_id with
                                | some t =>
                                  if t ≠ 0 then "\nPosition NFT ID: " ++ toString t else ""
                                | none => ""
                              ⟨Except.ok ("Successfully created Uniswap V3 liquidity position with:\n- "
                                ++ args.amount_weth ++ " WETH\n- " ++ args.amount_usdc ++
                                " USDC\n- Price range ticks: " ++ toString lu.1 ++ " to " ++
                                toString lu.2 ++ " (aligned with fee tier spacing)\n- Fee tier: " ++
                                toString sf.2 ++ "\nTransaction hash: " ++ tx_hash ++ token_id_msg),
                                [TxKind.approveWeth, TxKind.approveUsdc, TxKind.mint]⟩

/-- create_liquidity: the body wrapped in the outermost except clause,
which converts any escaping exception into the hint-bearing error. -/
def create_liquidity_run (args : CreateArgs) (o : LiquidityOracle) : HandlerOut :=
  let b := create_liquidity_body args o
  match b.result with
  | Except.error e => ⟨Except.ok (liqErr e), b.txs⟩
  | Except.ok s => ⟨Except.ok s, b.txs⟩

/-! ### get_price (uniswap_v3_action_provider.py lines 331-373) -/

/-- The spot-price computation of get_price over exact rationals:
price_ratio = (sqrtPriceX96 / 2^96)^2, then scaled by
10^(decimals_weth - decimals_usdc). -/
def priceOfSqrt (sqrt_price_x96 : ℤ) : ℚ :=
  ((sqrt_price_x96 : ℚ) / 2 ^ 96) ^ 2 *
    (10 : ℚ) ^ ((ASSET_DECIMALS "weth" : ℤ) - (ASSET_DECIMALS "usdc" : ℤ))

/-- Rendering of the price with six fractional digits, modelling the
Python format specifier .6f applied to the (idealized exact) price; the
model rounds ties away from zero where binary64 formatting rounds them
to even, a difference no claim exercises. -/
def formatFixed6 (q : ℚ) : String :=
  let n : ℤ := round (q * 1000000)
  let m := n.natAbs
  let ip := m / 1000000
  let fp := m % 1000000
  let ipChars := if ip = 0 then ['0'] else natDigitsChars ip
  let fpChars := natDigitsChars fp
  (if n < 0 then "-" else "") ++
    String.mk (ipChars ++ '.' :: (List.replicate (6 - fpChars.length) '0' ++ fpChars))

/-- get_price: network check, asset resolution inside a try, then the
factory-address dict lookup OUTSIDE any try (a miss raises KeyError,
modelled as an error result), getPool and slot0 each inside their own
try, and the final price computation and formatting. -/
def get_price_run (fee_tier : ℤ) (o : PriceOracle) : PriceOut :=
  if supports_network o.network = false then
    ⟨Except.ok ("Error: Network " ++ o.network.network_id ++ " is not supported by Uniswap V3"),
      false⟩
  else
    match get_asset_address o.network "weth" with
    | Except.error e => ⟨Except.ok ("Error: Could not get asset addresses: " ++ e), false⟩
    | Except.ok _ =>
      match get_asset_address o.network "usdc" with
      | Except.error e => ⟨Except.ok ("Error: Could not get asset addresses: " ++ e), false⟩
      | Except.ok _ =>
        match factory_address_table o.network.network_id with
        | none => ⟨Except.error ("KeyError: " ++ o.network.network_id), false⟩
        | some _ =>
          match o.getPool with
          | Except.error e => ⟨Except.ok ("Error: Failed to fetch pool address: " ++ e), false⟩
          | Except.ok pool_address =>
            if pool_address = ZERO_ADDRESS then
              ⟨Except.ok ("Error: No pool found for fee tier " ++ toString fee_tier), false⟩
            else
              match o.slot0 with
              | Except.error e => ⟨Except.ok ("Error fetching pool state (slot0): " ++ e), true⟩
              | Except.ok s0 =>
                ⟨Except.ok ("Current WETH/USDC price: " ++ formatFixed6 (priceOfSqrt s0.1) ++
                  " USDC per WETH (tick: " ++ toString s0.2 ++ ")"), true⟩

/-! ### Digit-string lemmas -/

theorem natOfDigits_foldl (l : List Char) (a : ℕ) :
    l.foldl (fun n c => 10 * n + digitVal c) a = a * 10 ^ l.length + natOfDigits l := by
  induction l generalizing a with
  | nil => simp [natOfDigits]
  | cons c t ih =>
    show t.foldl _ (10 * a + digitVal c) = _
    rw [ih (10 * a + digitVal c)]
    have h2 : natOfDigits (c :: t) = digitVal c * 10 ^ t.length + natOfDigits t := by
      show t.foldl _ (10 * 0 + digitVal c) = _
      rw [ih (10 * 0 + digitVal c)]
      ring
    rw [h2, List.length_cons]
    ring

theorem natOfDigits_cons (c : Char) (t : List Char) :
    natOfDigits (c :: t) = digitVal c * 10 ^ t.length + natOfDigits t := by
  show t.foldl _ (10 * 0 + digitVal c) = _
  rw [natOfDigits_foldl]
  ring

theorem natOfDigits_append (x y : List Char) :
    natOfDigits (x ++ y) = natOfDigits x * 10 ^ y.length + natOfDigits y := by
  unfold natOfDigits
  rw [List.foldl_append]
  rw [show (List.foldl (fun n c => 10 * n + digitVal c) 0 x) = natOfDigits x from rfl,
    natOfDigits_foldl]
  rfl

theorem isDig_toNat {c : Char} (h : isDig c = true) : 47 < c.toNat ∧ c.toNat < 58 := by
  unfold isDig at h
  rw [Bool.and_eq_true, decide_eq_true_iff, decide_eq_true_iff] at h
  exact h

theorem digitVal_lt {c : Char} (h : isDig c = true) : digitVal c < 10 := by
  have := isDig_toNat h
  unfold digitVal
  omega

theorem natOfDigits_lt {l : List Char} (h : l.all isDig = true) :
    natOfDigits l < 10 ^ l.length := by
  induction l with
  | nil => simp [natOfDigits]
  | cons c t ih =>
    rw [List.all_cons, Bool.and_eq_true] at h
    have h1 : digitVal c < 10 := digitVal_lt h.1
    have h2 : natOfDigits t < 10 ^ t.length := ih h.2
    rw [natOfDigits_cons, List.length_cons]
    calc digitVal c * 10 ^ t.length + natOfDigits t
        < digitVal c * 10 ^ t.length + 10 ^ t.length := by omega
      _ = (digitVal c + 1) * 10 ^ t.length := by ring
      _ ≤ 10 * 10 ^ t.length := Nat.mul_le_mul_right _ (by omega)
      _ = 10 ^ (t.length + 1) := by ring

theorem digitToChar_spec (x : ℕ) (hx : x < 10) :
    digitVal (digitToChar x) = x ∧ isDig (digitToChar x) = true := by
  interval_cases x <;> exact ⟨by decide, by decide⟩

theorem natDigitsRevAux_val (b : ℕ) :
    ∀ n, n < 10 ^ b → natOfDigits ((natDigitsRevAux b n).reverse) = n := by
  induction b with
  | zero =>
    intro n hn
    interval_cases n
    rfl
  | succ b ih =>
    intro n hn
    by_cases h0 : n = 0
    · subst h0
      simp [natDigitsRevAux, natOfDigits]
    · have hd : n / 10 < 10 ^ b := by
        rw [Nat.div_lt_iff_lt_mul (by norm_num)]
        rw [pow_succ] at hn
        exact hn
      rw [natDigitsRevAux, if_neg h0, List.reverse_cons, natOfDigits_append, ih _ hd]
      have h10 : n % 10 < 10 := Nat.mod_lt _ (by norm_num)
      have hv := (digitToChar_spec _ h10).1
      rw [natOfDigits_cons]
      simp only [List.length_cons, List.length_nil, natOfDigits, List.foldl_nil, pow_succ,
        pow_zero, hv]
      omega

theorem natDigitsChars_val (n : ℕ) : natOfDigits (natDigitsChars n) = n := by
  have h1 : n < 10 ^ (n + 1) := by
    calc n < 10 ^ n := Nat.lt_pow_self (by norm_num) n
      _ ≤ 10 ^ (n + 1) := Nat.pow_le_pow_right (by norm_num) (Nat.le_succ n)
  exact natDigitsRevAux_val (n + 1) n h1

theorem natDigitsRevAux_all (b : ℕ) : ∀ n, (natDigitsRevAux b n).all isDig = true := by
  induction b with
  | zero => intro n; rfl
  | succ b ih =>
    intro n
    by_cases h0 : n = 0
    · subst h0; rfl
    · rw [natDigitsRevAux, if_neg h0, List.all_cons, Bool.and_eq_true]
      exact ⟨(digitToChar_spec _ (Nat.mod_lt _ (by norm_num))).2, ih _⟩

theorem natDigitsChars_all (n : ℕ) : (natDigitsChars n).all isDig = true := by
  unfold natDigitsChars
  rw [List.all_eq_true] at *
  intro c hc
  have := natDigitsRevAux_all (n + 1) n
  rw [List.all_eq_true] at this
  exact this c (List.mem_reverse.mp hc)

theorem natDigitsChars_ne_nil {n : ℕ} (h : n ≠ 0) : natDigitsChars n ≠ [] := by
  unfold natDigitsChars
  rw [natDigitsRevAux, if_neg h]
  simp

theorem natOfDigits_replicate (k : ℕ) : natOfDigits (List.replicate k '0') = 0 := by
  induction k with
  | zero => rfl
  | succ k ih =>
    rw [List.replicate_succ, natOfDigits_cons, ih]
    have h0 : digitVal '0' = 0 := by decide
    rw [h0]
    ring

theorem all_isDig_replicate (k : ℕ) : (List.replicate k '0').all isDig = true := by
  rw [List.all_eq_true]
  intro c hc
  rw [List.eq_of_mem_replicate hc]
  decide

theorem isDig_ne {c : Char} (h : isDig c = true) :
    c ≠ '.' ∧ c ≠ 'e' ∧ c ≠ 'E' ∧ c ≠ '-' ∧ c ≠ '+' := by
  have hb := isDig_toNat h
  refine ⟨?_, ?_, ?_, ?_, ?_⟩ <;> intro he <;> subst he <;> revert hb <;> decide

theorem not_mem_of_all_isDig {l : List Char} (h : l.all isDig = true) {c : Char}
    (hc : isDig c = false) : c ∉ l := by
  intro hm
  rw [List.all_eq_true] at h
  have := h c hm
  rw [hc] at this
  cases this

/-! ### Splitting and parsing lemmas -/

theorem splitDot_of_not_mem {l : List Char} (h : '.' ∉ l) : splitDot l = [l] := by
  induction l with
  | nil => rfl
  | cons c t ih =>
    have hc : ¬(c = '.') := fun he => h (he ▸ List.mem_cons_self c t)
    rw [splitDot, if_neg hc, ih (fun hm => h (List.mem_cons_of_mem _ hm))]

theorem splitDot_append {w f : List Char} (h : '.' ∉ w) :
    splitDot (w ++ '.' :: f) = w :: splitDot f := by
  induction w with
  | nil =>
    rw [List.nil_append, splitDot, if_pos rfl]
  | cons c t ih =>
    have hc : ¬(c = '.') := fun he => h (he ▸ List.mem_cons_self c t)
    rw [List.cons_append, splitDot, if_neg hc,
      ih (fun hm => h (List.mem_cons_of_mem _ hm))]

theorem splitExp_of_not_mem {l : List Char} (h : ∀ c ∈ l, ¬(c = 'e' ∨ c = 'E')) :
    splitExp l = (l, none) := by
  induction l with
  | nil => rfl
  | cons c t ih =>
    rw [splitExp, if_neg (h c (List.mem_cons_self c t)),
      ih (fun x hx => h x (List.mem_cons_of_mem _ hx))]

theorem splitExp_append {x y : List Char} (h : ∀ c ∈ x, ¬(c = 'e' ∨ c = 'E')) :
    splitExp (x ++ 'E' :: y) = (x, some y) := by
  induction x with
  | nil =>
    rw [List.nil_append, splitExp, if_pos (Or.inr rfl)]
  | cons c t ih =>
    rw [List.cons_append, splitExp, if_neg (h c (List.mem_cons_self c t)),
      ih (fun z hz => h z (List.mem_cons_of_mem _ hz))]

theorem digitsToNat_of_digits {l : List Char} (hne : l ≠ []) (h : l.all isDig = true) :
    digitsToNat l = some (natOfDigits l) := by
  unfold digitsToNat
  rw [if_pos ⟨hne, h⟩]

theorem pyIntParse_digits {l : List Char} (hne : l ≠ []) (h : l.all isDig = true) :
    pyIntParse l = some ((natOfDigits l : ℤ)) := by
  match l with
  | [] => exact absurd rfl hne
  | c :: t =>
    have hc : isDig c = true := by
      rw [List.all_cons, Bool.and_eq_true] at h
      exact h.1
    have hne2 := isDig_ne hc
    rw [pyIntParse, if_neg hne2.2.2.2.1, if_neg hne2.2.2.2.2,
      digitsToNat_of_digits (List.cons_ne_nil c t) h]
    rfl

theorem pyIntParse_neg {l : List Char} (hne : l ≠ []) (h : l.all isDig = true) :
    pyIntParse ('-' :: l) = some (-(natOfDigits l : ℤ)) := by
  rw [pyIntParse, if_pos rfl, digitsToNat_of_digits hne h]
  rfl

theorem noDot_of_digits {l : List Char} (h : l.all isDig = true) : '.' ∉ l :=
  not_mem_of_all_isDig h (by decide)

theorem noExp_of_digits {l : List Char} (h : l.all isDig = true) :
    ∀ c ∈ l, ¬(c = 'e' ∨ c = 'E') := by
  intro c hc he
  rw [List.all_eq_true] at h
  have hd := isDig_ne (h c hc)
  rcases he with he | he
  · exact hd.2.1 he
  · exact hd.2.2.1 he

theorem noExp_dotted {w f : List Char} (hw : w.all isDig = true) (hf : f.all isDig = true) :
    ∀ c ∈ w ++ '.' :: f, ¬(c = 'e' ∨ c = 'E') := by
  intro c hc he
  rcases List.mem_append.mp hc with hm | hm
  · exact noExp_of_digits hw c hm he
  · rcases List.mem_cons.mp hm with hm | hm
    · subst hm
      rcases he with he | he <;> cases he
    · exact noExp_of_digits hf c hm he

theorem any_exp_false {l : List Char} (h : ∀ c ∈ l, ¬(c = 'e' ∨ c = 'E')) :
    (l.any fun c => c = 'e' ∨ c = 'E') = false := by
  rw [Bool.eq_false_iff]
  intro ha
  rw [List.any_eq_true] at ha
  obtain ⟨c, hc, hp⟩ := ha
  rw [decide_eq_true_iff] at hp
  exact h c hc hp

theorem stripSign_of_head {c : Char} (t : List Char) (h1 : ¬(c = '-')) (h2 : ¬(c = '+')) :
    stripSign (c :: t) = (1, c :: t) := by
  rw [stripSign, if_neg h1, if_neg h2]

theorem parseMantissa_digits {w : List Char} (hne : w ≠ []) (hw : w.all isDig = true) :
    parseMantissa w = some ((natOfDigits w : ℚ)) := by
  rw [parseMantissa, splitDot_of_not_mem (noDot_of_digits hw)]
  show (if w ≠ [] ∧ w.all isDig = true then some ((natOfDigits w : ℚ)) else none) = _
  rw [if_pos ⟨hne, hw⟩]

theorem parseMantissa_dotted {w f : List Char} (hw : w.all isDig = true)
    (hf : f.all isDig = true) (hne : w ≠ [] ∨ f ≠ []) :
    parseMantissa (w ++ '.' :: f) =
      some ((natOfDigits w : ℚ) + (natOfDigits f : ℚ) / 10 ^ f.length) := by
  rw [parseMantissa, splitDot_append (noDot_of_digits hw),
    splitDot_of_not_mem (noDot_of_digits hf)]
  show (if (w ≠ [] ∨ f ≠ []) ∧ w.all isDig = true ∧ f.all isDig = true then
    some ((natOfDigits w : ℚ) + (natOfDigits f : ℚ) / 10 ^ f.length) else none) = _
  rw [if_pos ⟨hne, hw, hf⟩]

theorem parseDecimalLit_digits {w : List Char} (hne : w ≠ []) (hw : w.all isDig = true) :
    parseDecimalLit w = some ((natOfDigits w : ℚ)) := by
  match w with
  | [] => exact absurd rfl hne
  | c :: t =>
    have hc : isDig c = true := by
      rw [List.all_cons, Bool.and_eq_true] at hw
      exact hw.1
    have hne2 := isDig_ne hc
    rw [parseDecimalLit, stripSign_of_head t hne2.2.2.2.1 hne2.2.2.2.2]
    rw [splitExp_of_not_mem (noExp_of_digits hw)]
    rw [parseMantissa_digits hne hw]
    simp

theorem parseDecimalLit_dotted {w f : List Char} (hw : w.all isDig = true)
    (hf : f.all isDig = true) (hne : w ≠ []) :
    parseDecimalLit (w ++ '.' :: f) =
      some ((natOfDigits w : ℚ) + (natOfDigits f : ℚ) / 10 ^ f.length) := by
  match w with
  | [] => exact absurd rfl hne
  | c :: t =>
    have hc : isDig c = true := by
      rw [List.all_cons, Bool.and_eq_true] at hw
      exact hw.1
    have hne2 := isDig_ne hc
    rw [parseDecimalLit, List.cons_append,
      stripSign_of_head (t ++ '.' :: f) hne2.2.2.2.1 hne2.2.2.2.2, ← List.cons_append]
    rw [splitExp_of_not_mem (noExp_dotted hw hf)]
    rw [parseMantissa_dotted hw hf (Or.inl hne)]
    simp

theorem parseExpPart_neg {l : List Char} (hne : l ≠ []) (h : l.all isDig = true) :
    parseExpPart ('-' :: l) = some (-(natOfDigits l : ℤ)) := by
  rw [parseExpPart, if_pos rfl, digitsToNat_of_digits hne h]
  rfl

theorem parseDecimalLit_sci_digits {w e : List Char} (hwne : w ≠ [])
    (hw : w.all isDig = true) (hene : e ≠ []) (he : e.all isDig = true) :
    parseDecimalLit (w ++ 'E' :: '-' :: e) =
      some ((natOfDigits w : ℚ) * (10 : ℚ) ^ (-(natOfDigits e : ℤ))) := by
  match w with
  | [] => exact absurd rfl hwne
  | c :: t =>
    have hc : isDig c = true := by
      rw [List.all_cons, Bool.and_eq_true] at hw
      exact hw.1
    have hne2 := isDig_ne hc
    rw [parseDecimalLit, List.cons_append,
      stripSign_of_head (t ++ 'E' :: '-' :: e) hne2.2.2.2.1 hne2.2.2.2.2, ← List.cons_append]
    rw [splitExp_append (noExp_of_digits hw)]
    rw [parseMantissa_digits hwne hw]
    simp [parseExpPart_neg hene he]

theorem parseDecimalLit_sci_dotted {w f e : List Char} (hwne : w ≠ [])
    (hw : w.all isDig = true) (hf : f.all isDig = true) (hene : e ≠ [])
    (he : e.all isDig = true) :
    parseDecimalLit (w ++ '.' :: f ++ 'E' :: '-' :: e) =
      some (((natOfDigits w : ℚ) + (natOfDigits f : ℚ) / 10 ^ f.length) *
        (10 : ℚ) ^ (-(natOfDigits e : ℤ))) := by
  match w with
  | [] => exact absurd rfl hwne
  | c :: t =>
    have hc : isDig c = true := by
      rw [List.all_cons, Bool.and_eq_true] at hw
      exact hw.1
    have hne2 := isDig_ne hc
    have hassoc : (c :: t) ++ '.' :: f ++ 'E' :: '-' :: e =
        ((c :: t) ++ '.' :: f) ++ 'E' :: '-' :: e := by
      rw [List.append_assoc]
    rw [hassoc, parseDecimalLit]
    rw [show ((c :: t) ++ '.' :: f) ++ 'E' :: '-' :: e =
      c :: ((t ++ '.' :: f) ++ 'E' :: '-' :: e) by simp]
    rw [stripSign_of_head _ hne2.2.2.2.1 hne2.2.2.2.2]
    rw [show c :: ((t ++ '.' :: f) ++ 'E' :: '-' :: e) =
      ((c :: t) ++ '.' :: f) ++ 'E' :: '-' :: e by simp]
    rw [splitExp_append (noExp_dotted hw hf)]
    rw [parseMantissa_dotted hw hf (Or.inl hwne)]
    simp [parseExpPart_neg hene he]

/-! ### Rendering lemmas -/

theorem natOfDigits_pad (f : List Char) (k : ℕ) :
    natOfDigits (f ++ List.replicate k '0') = natOfDigits f * 10 ^ k := by
  rw [natOfDigits_append, natOfDigits_replicate, List.length_replicate]
  ring

theorem natOfDigits_take_drop (l : List Char) (j : ℕ) :
    natOfDigits l = natOfDigits (l.take j) * 10 ^ (l.length - j) + natOfDigits (l.drop j) := by
  conv_lhs => rw [← List.take_append_drop j l]
  rw [natOfDigits_append, List.length_drop]

theorem stripZeros_spec (b : ℕ) : ∀ n, n ≠ 0 →
    (stripZeros b n).1 ≠ 0 ∧ (stripZeros b n).2 ≤ b ∧
      n = (stripZeros b n).1 * 10 ^ (stripZeros b n).2 := by
  induction b with
  | zero =>
    intro n hn
    exact ⟨hn, le_refl 0, by simp [stripZeros]⟩
  | succ b ih =>
    intro n hn
    by_cases hc : n % 10 = 0 ∧ n ≠ 0
    · have hne : n / 10 ≠ 0 := by omega
      obtain ⟨h1, h2, h3⟩ := ih (n / 10) hne
      rw [stripZeros, if_pos hc]
      refine ⟨h1, by simpa using Nat.succ_le_succ h2, ?_⟩
      calc n = n / 10 * 10 := by omega
        _ = (stripZeros b (n / 10)).1 * 10 ^ (stripZeros b (n / 10)).2 * 10 := by rw [← h3]
        _ = (stripZeros b (n / 10)).1 * 10 ^ ((stripZeros b (n / 10)).2 + 1) := by ring

    · rw [stripZeros, if_neg hc]
      exact ⟨hn, Nat.zero_le _, by simp⟩

theorem parse_renderCore (c k : ℕ) (hc : c ≠ 0) :
    parseDecimalLit (renderCore c k) = some ((c : ℚ) / 10 ^ k) := by
  have hLv : natOfDigits (natDigitsChars c) = c := natDigitsChars_val c
  have hLd : (natDigitsChars c).all isDig = true := natDigitsChars_all c
  have hLne : natDigitsChars c ≠ [] := natDigitsChars_ne_nil hc
  have hmpos : 0 < (natDigitsChars c).length := List.length_pos.mpr hLne
  rw [renderCore]
  by_cases hk0 : k = 0
  · rw [if_pos hk0, parseDecimalLit_digits hLne hLd, hLv, hk0]
    norm_num
  · rw [if_neg hk0]
    by_cases hadj : (-6 : ℤ) ≤ ((natDigitsChars c).length : ℤ) - 1 - (k : ℤ)
    · rw [if_pos hadj]
      by_cases hkm : k < (natDigitsChars c).length
      · -- positional with the point inside the digits
        rw [if_pos hkm]
        have htne : (natDigitsChars c).take ((natDigitsChars c).length - k) ≠ [] := by
          intro he
          have := congrArg List.length he
          rw [List.length_take] at this
          simp only [List.length_nil] at this
          omega
        have htd : ((natDigitsChars c).take ((natDigitsChars c).length - k)).all isDig = true := by
          rw [List.all_eq_true] at hLd ⊢
          exact fun x hx => hLd x (List.take_subset _ _ hx)
        have hdd : ((natDigitsChars c).drop ((natDigitsChars c).length - k)).all isDig = true := by
          rw [List.all_eq_true] at hLd ⊢
          exact fun x hx => hLd x (List.drop_subset _ _ hx)
        rw [parseDecimalLit_dotted htd hdd htne]
        have hlen : ((natDigitsChars c).drop ((natDigitsChars c).length - k)).length = k := by
          rw [List.length_drop]
          omega
        have hexp0 : (natDigitsChars c).length - ((natDigitsChars c).length - k) = k := by
          omega
        have hsplit := natOfDigits_take_drop (natDigitsChars c) ((natDigitsChars c).length - k)
        rw [hLv, hexp0] at hsplit
        rw [hlen]
        conv_rhs => rw [hsplit]
        push_cast
        have h10 : ((10 : ℚ) ^ k) ≠ 0 := by positivity
        field_simp
      · -- positional of the form 0.000ddd
        rw [if_neg hkm]
        have hmk : (natDigitsChars c).length ≤ k := by omega
        have hfd : (List.replicate (k - (natDigitsChars c).length) '0' ++
            natDigitsChars c).all isDig = true := by
          rw [List.all_append]
          rw [all_isDig_replicate, hLd]
          rfl
        have hshape : ('0' :: '.' :: (List.replicate (k - (natDigitsChars c).length) '0' ++
            natDigitsChars c)) =
            ['0'] ++ '.' :: (List.replicate (k - (natDigitsChars c).length) '0' ++
              natDigitsChars c) := rfl
        rw [hshape, parseDecimalLit_dotted (by decide) hfd (by decide)]
        have hfv : natOfDigits (List.replicate (k - (natDigitsChars c).length) '0' ++
            natDigitsChars c) = c := by
          rw [natOfDigits_append, natOfDigits_replicate, hLv]
          ring
        have hfl : (List.replicate (k - (natDigitsChars c).length) '0' ++
            natDigitsChars c).length = k := by
          rw [List.length_append, List.length_replicate]
          omega
        rw [hfv, hfl]
        have h0v : natOfDigits ['0'] = 0 := by decide
        rw [h0v]
        norm_num
    · -- scientific notation
      rw [if_neg hadj]
      have hkm6 : (natDigitsChars c).length + 6 ≤ k := by omega
      obtain ⟨c0, rest, hL⟩ : ∃ x r, natDigitsChars c = x :: r := by
        cases hE : natDigitsChars c with
        | nil => exact absurd hE hLne
        | cons x r => exact ⟨x, r, rfl⟩
      rw [hL] at hLv hLd hkm6 ⊢
      have hc0d : isDig c0 = true := by
        rw [List.all_cons, Bool.and_eq_true] at hLd
        exact hLd.1
      have hrd : rest.all isDig = true := by
        rw [List.all_cons, Bool.and_eq_true] at hLd
        exact hLd.2
      by_cases hre : rest = []
      · -- single digit mantissa: c0 E- exponent
        subst hre
        show parseDecimalLit ([c0] ++ 'E' :: '-' :: natDigitsChars k) = some ((c : ℚ) / 10 ^ k)
        have hene : natDigitsChars k ≠ [] := natDigitsChars_ne_nil (by omega)
        rw [parseDecimalLit_sci_digits (by simp) (by simp [hc0d]) hene (natDigitsChars_all k),
          natDigitsChars_val k]
        rw [show natOfDigits [c0] = c from hLv]
        rw [zpow_neg, zpow_natCast, div_eq_mul_inv]
      · -- mantissa c0 . rest
        obtain ⟨r1, rs, hrr⟩ : ∃ y t, rest = y :: t := by
          cases rest with
          | nil => exact absurd rfl hre
          | cons y t => exact ⟨y, t, rfl⟩
        subst hrr
        show parseDecimalLit ((c0 :: '.' :: (r1 :: rs)) ++ 'E' :: '-' ::
          natDigitsChars (k - (rs.length + 1))) = some ((c : ℚ) / 10 ^ k)
        simp only [List.length_cons] at hkm6
        have hsh : (c0 :: '.' :: (r1 :: rs)) ++ 'E' :: '-' ::
            natDigitsChars (k - (rs.length + 1)) =
            [c0] ++ '.' :: (r1 :: rs) ++ 'E' :: '-' ::
              natDigitsChars (k - (rs.length + 1)) := by
          simp
        have hene : natDigitsChars (k - (rs.length + 1)) ≠ [] :=
          natDigitsChars_ne_nil (by omega)
        rw [hsh, parseDecimalLit_sci_dotted (by simp) (by simp [hc0d]) hrd hene
          (natDigitsChars_all _), natDigitsChars_val _]
        have h1 : natOfDigits [c0] = digitVal c0 := by
          rw [natOfDigits_cons]
          simp [natOfDigits]
        have hcd : c = digitVal c0 * 10 ^ (rs.length + 1) + natOfDigits (r1 :: rs) := by
          rw [← hLv, natOfDigits_cons, List.length_cons]
        have hlen2 : (r1 :: rs).length = rs.length + 1 := by rw [List.length_cons]
        rw [h1, hlen2, zpow_neg, zpow_natCast]
        congr 1
        have h10a : ((10 : ℚ) ^ (rs.length + 1)) ≠ 0 := by positivity
        have hexp : (10 : ℚ) ^ (rs.length + 1) * (10 : ℚ) ^ (k - (rs.length + 1)) =
            10 ^ k := by
          rw [← pow_add]
          congr 1
          omega
        have key : ((digitVal c0 : ℚ) + (natOfDigits (r1 :: rs) : ℚ) / 10 ^ (rs.length + 1)) =
            (c : ℚ) / 10 ^ (rs.length + 1) := by
          rw [hcd]
          push_cast
          field_simp
        rw [key, div_eq_mul_inv, div_eq_mul_inv, mul_assoc, ← mul_inv, hexp]

theorem stripZeros_ndvd (b : ℕ) : ∀ n, n ≠ 0 → (stripZeros b n).2 < b →
    ¬(10 ∣ (stripZeros b n).1) := by
  induction b with
  | zero =>
    intro n hn h
    simp [stripZeros] at h
  | succ b ih =>
    intro n hn hlt
    by_cases hc : n % 10 = 0 ∧ n ≠ 0
    · rw [stripZeros, if_pos hc] at hlt ⊢
      have hne : n / 10 ≠ 0 := by omega
      have hlt2 : (stripZeros b (n / 10)).2 + 1 < b + 1 := hlt
      exact ih (n / 10) hne (by omega)
    · rw [stripZeros, if_neg hc]
      intro hdvd
      obtain ⟨m, hm⟩ := hdvd
      exact hc ⟨by omega, hn⟩

theorem natDigitsChars_snoc (c : ℕ) (hc : c ≠ 0) :
    natDigitsChars c = (natDigitsRevAux c (c / 10)).reverse ++ [digitToChar (c % 10)] := by
  rw [natDigitsChars, natDigitsRevAux, if_neg hc, List.reverse_cons]

theorem digitToChar_ne_zero {x : ℕ} (h1 : x ≠ 0) (h2 : x < 10) : digitToChar x ≠ '0' := by
  have h3 : 1 ≤ x := Nat.one_le_iff_ne_zero.mpr h1
  interval_cases x <;> decide

theorem rstripChar_snoc (ch x : Char) (l : List Char) (hx : ¬(x = ch)) :
    rstripChar ch (l ++ [x]) = l ++ [x] := by
  rw [rstripChar, show (l ++ [x]).reverse = x :: l.reverse from by simp,
    List.dropWhile_cons, if_neg (by simpa using hx)]
  simp

theorem pyRstrip_no_dot {l : List Char} (h : '.' ∉ l) : pyRstrip l = l := if_neg h

theorem pyRstrip_snoc_digit (l : List Char) (x : Char) (hx : isDig x = true)
    (hx0 : ¬(x = '0')) : pyRstrip (l ++ [x]) = l ++ [x] := by
  have hxd : ¬(x = '.') := (isDig_ne hx).1
  rw [pyRstrip]
  by_cases hd : '.' ∈ l ++ [x]
  · rw [if_pos hd, rstripChar_snoc '0' x l hx0, rstripChar_snoc '.' x l hxd]
  · rw [if_neg hd]

theorem pyRstrip_renderCore (c k : ℕ) (hc : c ≠ 0) (hnd : k = 0 ∨ ¬(10 ∣ c))
    (hadj : (-6 : ℤ) ≤ ((natDigitsChars c).length : ℤ) - 1 - (k : ℤ)) :
    pyRstrip (renderCore c k) = renderCore c k := by
  rw [renderCore]
  by_cases hk0 : k = 0
  · rw [if_pos hk0]
    exact pyRstrip_no_dot (not_mem_of_all_isDig (natDigitsChars_all c) (by decide))
  · rw [if_neg hk0, if_pos hadj]
    have hndvd : ¬(10 ∣ c) := hnd.resolve_left hk0
    have hm0 : c % 10 ≠ 0 := fun h => hndvd (Nat.dvd_of_mod_eq_zero h)
    have hlast : digitToChar (c % 10) ≠ '0' :=
      digitToChar_ne_zero hm0 (Nat.mod_lt _ (by norm_num))
    have hlastd : isDig (digitToChar (c % 10)) = true :=
      (digitToChar_spec _ (Nat.mod_lt _ (by norm_num))).2
    obtain ⟨Ls, hsnoc⟩ : ∃ Ls, natDigitsChars c = Ls ++ [digitToChar (c % 10)] :=
      ⟨(natDigitsRevAux c (c / 10)).reverse, natDigitsChars_snoc c hc⟩
    have hlen : (natDigitsChars c).length = Ls.length + 1 := by
      rw [hsnoc]
      simp
    by_cases hkm : k < (natDigitsChars c).length
    · rw [if_pos hkm]
      have hj : (natDigitsChars c).length - k ≤ Ls.length := by omega
      have hdrop : (natDigitsChars c).drop ((natDigitsChars c).length - k) =
          Ls.drop ((natDigitsChars c).length - k) ++ [digitToChar (c % 10)] := by
        rw [congrArg (List.drop ((natDigitsChars c).length - k)) hsnoc]
        exact List.drop_append_of_le_length hj
      rw [hdrop,
        show (natDigitsChars c).take ((natDigitsChars c).length - k) ++
          '.' :: (Ls.drop ((natDigitsChars c).length - k) ++ [digitToChar (c % 10)]) =
          ((natDigitsChars c).take ((natDigitsChars c).length - k) ++
            '.' :: Ls.drop ((natDigitsChars c).length - k)) ++ [digitToChar (c % 10)] from by
          simp]
      exact pyRstrip_snoc_digit _ _ hlastd hlast
    · rw [if_neg hkm,
        show '0' :: '.' :: (List.replicate (k - (natDigitsChars c).length) '0' ++
          natDigitsChars c) =
          ('0' :: '.' :: (List.replicate (k - (natDigitsChars c).length) '0' ++ Ls)) ++
            [digitToChar (c % 10)] from by rw [hsnoc]; simp]
      exact pyRstrip_snoc_digit _ _ hlastd hlast

theorem parse_format_zero (d : ℕ) :
    parseDecimalLit (format_amount_from_decimals 0 d).data = some 0 := by
  rw [format_amount_from_decimals, if_pos rfl,
    show ("0" : String).data = ['0'] from rfl,
    parseDecimalLit_digits (by decide) (by decide),
    show natOfDigits ['0'] = 0 from by decide]
  norm_num

theorem parse_format_amount_from_decimals (a : ℤ) (d : ℕ) (ha : 0 < a)
    (hpos : (10 : ℤ) ^ d ≤ 10 ^ 6 * a) :
    parseDecimalLit (format_amount_from_decimals a d).data = some ((a : ℚ) / 10 ^ d) := by
  have h0 : a ≠ 0 := by omega
  have hneg : ¬(a < 0) := by omega
  have hnabs : a.natAbs ≠ 0 := by omega
  obtain ⟨hc0, hsle, hfact⟩ := stripZeros_spec d a.natAbs hnabs
  have hposn : 10 ^ d ≤ 10 ^ 6 * a.natAbs := by
    have h1 : ((10 : ℤ) ^ d) ≤ 10 ^ 6 * (a.natAbs : ℤ) := by
      rw [Int.natAbs_of_nonneg (le_of_lt ha)]
      exact hpos
    exact_mod_cast h1
  have hclt : (stripZeros d a.natAbs).1 <
      10 ^ (natDigitsChars (stripZeros d a.natAbs).1).length := by
    have h1 := natOfDigits_lt (natDigitsChars_all (stripZeros d a.natAbs).1)
    rw [natDigitsChars_val] at h1
    exact h1
  have hknd : d - (stripZeros d a.natAbs).2 = 0 ∨ ¬(10 ∣ (stripZeros d a.natAbs).1) := by
    by_cases hk : d - (stripZeros d a.natAbs).2 = 0
    · exact Or.inl hk
    · exact Or.inr (stripZeros_ndvd d a.natAbs hnabs (by omega))
  have hkle : 10 ^ (d - (stripZeros d a.natAbs).2) ≤ 10 ^ 6 * (stripZeros d a.natAbs).1 := by
    have h1 : 10 ^ ((stripZeros d a.natAbs).2 + (d - (stripZeros d a.natAbs).2)) ≤
        10 ^ 6 * ((stripZeros d a.natAbs).1 * 10 ^ (stripZeros d a.natAbs).2) := by
      rw [show (stripZeros d a.natAbs).2 + (d - (stripZeros d a.natAbs).2) = d from by omega,
        ← hfact]
      exact hposn
    rw [pow_add] at h1
    have h2 : 10 ^ (d - (stripZeros d a.natAbs).2) * 10 ^ (stripZeros d a.natAbs).2 ≤
        (10 ^ 6 * (stripZeros d a.natAbs).1) * 10 ^ (stripZeros d a.natAbs).2 := by
      calc 10 ^ (d - (stripZeros d a.natAbs).2) * 10 ^ (stripZeros d a.natAbs).2 =
          10 ^ (stripZeros d a.natAbs).2 * 10 ^ (d - (stripZeros d a.natAbs).2) := by ring
        _ ≤ 10 ^ 6 * ((stripZeros d a.natAbs).1 * 10 ^ (stripZeros d a.natAbs).2) := h1
        _ = (10 ^ 6 * (stripZeros d a.natAbs).1) * 10 ^ (stripZeros d a.natAbs).2 := by ring
    exact Nat.le_of_mul_le_mul_right h2 (by positivity)
  have hklt : 10 ^ (d - (stripZeros d a.natAbs).2) <
      10 ^ (6 + (natDigitsChars (stripZeros d a.natAbs).1).length) := by
    calc 10 ^ (d - (stripZeros d a.natAbs).2) ≤ 10 ^ 6 * (stripZeros d a.natAbs).1 := hkle
      _ < 10 ^ 6 * 10 ^ (natDigitsChars (stripZeros d a.natAbs).1).length :=
        mul_lt_mul_of_pos_left hclt (by positivity)
      _ = 10 ^ (6 + (natDigitsChars (stripZeros d a.natAbs).1).length) := by rw [pow_add]
  have hkmlt : d - (stripZeros d a.natAbs).2 <
      6 + (natDigitsChars (stripZeros d a.natAbs).1).length :=
    (Nat.pow_lt_pow_iff_right (by norm_num)).mp hklt
  have hadj : (-6 : ℤ) ≤
      ((natDigitsChars (stripZeros d a.natAbs).1).length : ℤ) - 1 -
        ((d - (stripZeros d a.natAbs).2 : ℕ) : ℤ) := by omega
  rw [format_amount_from_decimals, if_neg h0, if_neg hneg]
  show parseDecimalLit (pyRstrip (renderCore (stripZeros d a.natAbs).1
    (d - (stripZeros d a.natAbs).2))) = _
  rw [pyRstrip_renderCore _ _ hc0 hknd hadj, parse_renderCore _ _ hc0]
  congr 1
  have haq : (a : ℚ) = ((stripZeros d a.natAbs).1 : ℚ) * 10 ^ (stripZeros d a.natAbs).2 := by
    have h1 : ((a.natAbs : ℤ) : ℚ) = (a : ℚ) := by
      rw [Int.natAbs_of_nonneg (le_of_lt ha)]
    have h2 : ((a.natAbs : ℕ) : ℚ) =
        (((stripZeros d a.natAbs).1 * 10 ^ (stripZeros d a.natAbs).2 : ℕ) : ℚ) :=
      congrArg (fun t : ℕ => (t : ℚ)) hfact
    calc (a : ℚ) = ((a.natAbs : ℤ) : ℚ) := h1.symm
      _ = ((a.natAbs : ℕ) : ℚ) := Int.cast_natCast _
      _ = (((stripZeros d a.natAbs).1 * 10 ^ (stripZeros d a.natAbs).2 : ℕ) : ℚ) := h2
      _ = ((stripZeros d a.natAbs).1 : ℚ) * 10 ^ (stripZeros d a.natAbs).2 := by
          push_cast
          ring
  rw [haq]
  have hpow : (10 : ℚ) ^ d = 10 ^ (stripZeros d a.natAbs).2 *
      10 ^ (d - (stripZeros d a.natAbs).2) := by
    rw [← pow_add]
    congr 1
    omega
  rw [hpow, mul_comm (((stripZeros d a.natAbs).1 : ℚ)) ((10 : ℚ) ^ (stripZeros d a.natAbs).2),
    mul_div_mul_left _ _ (by positivity : ((10 : ℚ) ^ (stripZeros d a.natAbs).2) ≠ 0)]

/-! ### Behaviour of format_amount_with_decimals on plain decimal strings -/

theorem format_plain_digits (w : List Char) (d : ℕ) (hw : w.all isDig = true)
    (hwne : w ≠ []) :
    format_amount_with_decimals (String.mk w) d = some ((natOfDigits w : ℤ) * 10 ^ d) := by
  have hdata : (String.mk w).data = w := rfl
  rw [format_amount_with_decimals]
  simp only [hdata, any_exp_false (noExp_of_digits hw), Bool.false_eq_true, if_false,
    splitDot_of_not_mem (noDot_of_digits hw), pyIntParse_digits hwne hw, Option.map_some']

theorem format_dotted_pad (w f : List Char) (d : ℕ) (hw : w.all isDig = true)
    (hwne : w ≠ []) (hf : f.all isDig = true) (hfne : f ≠ []) (hlen : f.length ≤ d) :
    format_amount_with_decimals (String.mk (w ++ '.' :: f)) d =
      some ((natOfDigits w : ℤ) * 10 ^ d + natOfDigits f * 10 ^ (d - f.length)) := by
  have hdata : (String.mk (w ++ '.' :: f)).data = w ++ '.' :: f := rfl
  have hs : splitDot (w ++ '.' :: f) = [w, f] := by
    rw [splitDot_append (noDot_of_digits hw), splitDot_of_not_mem (noDot_of_digits hf)]
  have hnl : ¬(d < f.length) := by omega
  have hpadne : f ++ List.replicate (d - f.length) '0' ≠ [] := by
    intro he
    exact hfne (List.append_eq_nil.mp he).1
  have hpadd : (f ++ List.replicate (d - f.length) '0').all isDig = true := by
    rw [List.all_append, hf, all_isDig_replicate]
    rfl
  rw [format_amount_with_decimals]
  simp only [hdata, any_exp_false (noExp_dotted hw hf), Bool.false_eq_true, if_false, hs,
    pyIntParse_digits hwne hw, hnl, if_false, pyIntParse_digits hpadne hpadd,
    natOfDigits_pad, Option.map_some']
  push_cast
  ring_nf

theorem format_dotted_take (w f : List Char) (d : ℕ) (hw : w.all isDig = true)
    (hwne : w ≠ []) (hf : f.all isDig = true) (hd : 1 ≤ d) (hlen : d < f.length) :
    format_amount_with_decimals (String.mk (w ++ '.' :: f)) d =
      some ((natOfDigits w : ℤ) * 10 ^ d + natOfDigits (f.take d)) := by
  have hdata : (String.mk (w ++ '.' :: f)).data = w ++ '.' :: f := rfl
  have hs : splitDot (w ++ '.' :: f) = [w, f] := by
    rw [splitDot_append (noDot_of_digits hw), splitDot_of_not_mem (noDot_of_digits hf)]
  have htne : f.take d ≠ [] := by
    intro he
    have := congrArg List.length he
    rw [List.length_take] at this
    simp only [List.length_nil] at this
    omega
  have htd : (f.take d).all isDig = true := by
    rw [List.all_eq_true] at hf ⊢
    exact fun x hx => hf x (List.take_subset _ _ hx)
  rw [format_amount_with_decimals]
  simp only [hdata, any_exp_false (noExp_dotted hw hf), Bool.false_eq_true, if_false, hs,
    pyIntParse_digits hwne hw, hlen, if_true, pyIntParse_digits htne htd, Option.map_some']

theorem format_dotted_floor (w f : List Char) (d : ℕ) (hw : w.all isDig = true)
    (hwne : w ≠ []) (hf : f.all isDig = true) (hfne : f ≠ []) (hd : 1 ≤ d) :
    format_amount_with_decimals (String.mk (w ++ '.' :: f)) d =
      some ⌊((natOfDigits w : ℚ) + (natOfDigits f : ℚ) / 10 ^ f.length) * 10 ^ d⌋ := by
  by_cases hlen : d < f.length
  · rw [format_dotted_take w f d hw hwne hf hd hlen]
    congr 1
    symm
    have hdd : (f.drop d).all isDig = true := by
      rw [List.all_eq_true] at hf ⊢
      exact fun x hx => hf x (List.drop_subset _ _ hx)
    have hR : natOfDigits (f.drop d) < 10 ^ (f.length - d) := by
      have := natOfDigits_lt hdd
      rw [List.length_drop] at this
      exact this
    have hTR : natOfDigits f =
        natOfDigits (f.take d) * 10 ^ (f.length - d) + natOfDigits (f.drop d) :=
      natOfDigits_take_drop f d
    have hpowL : (10 : ℚ) ^ f.length = 10 ^ (f.length - d) * 10 ^ d := by
      rw [← pow_add]
      congr 1
      omega
    have h10E : (0 : ℚ) < 10 ^ (f.length - d) := by positivity
    have h10d : (0 : ℚ) < 10 ^ d := by positivity
    have harg : ((natOfDigits w : ℚ) + (natOfDigits f : ℚ) / 10 ^ f.length) * 10 ^ d =
        (natOfDigits w : ℚ) * 10 ^ d + natOfDigits (f.take d) +
          (natOfDigits (f.drop d) : ℚ) / 10 ^ (f.length - d) := by
      rw [hTR, hpowL]
      push_cast
      field_simp
      ring
    rw [Int.floor_eq_iff, harg]
    constructor
    · push_cast
      have : (0 : ℚ) ≤ (natOfDigits (f.drop d) : ℚ) / 10 ^ (f.length - d) :=
        div_nonneg (by positivity) (le_of_lt h10E)
      linarith
    · push_cast
      have : (natOfDigits (f.drop d) : ℚ) / 10 ^ (f.length - d) < 1 := by
        rw [div_lt_one h10E]
        exact_mod_cast hR
      linarith
  · have hlen2 : f.length ≤ d := by omega
    rw [format_dotted_pad w f d hw hwne hf hfne hlen2]
    congr 1
    symm
    have hpowd : (10 : ℚ) ^ d = 10 ^ f.length * 10 ^ (d - f.length) := by
      rw [← pow_add]
      congr 1
      omega
    have hP : ((10 : ℚ) ^ f.length) ≠ 0 := by positivity
    have harg : ((natOfDigits w : ℚ) + (natOfDigits f : ℚ) / 10 ^ f.length) * 10 ^ d =
        (((natOfDigits w : ℤ) * 10 ^ d + natOfDigits f * 10 ^ (d - f.length) : ℤ) : ℚ) := by
      push_cast
      rw [hpowd, add_mul,
        show (natOfDigits f : ℚ) / 10 ^ f.length * (10 ^ f.length * 10 ^ (d - f.length)) =
          (natOfDigits f : ℚ) / 10 ^ f.length * 10 ^ f.length * 10 ^ (d - f.length) from by
            ring,
        div_mul_cancel₀ _ hP]
    rw [harg, Int.floor_intCast]

theorem format_neg_dotted (w f : List Char) (d : ℕ) (hw : w.all isDig = true)
    (hwne : w ≠ []) (hf : f.all isDig = true) (hfne : f ≠ []) (hlen : f.length ≤ d) :
    format_amount_with_decimals (String.mk ('-' :: (w ++ '.' :: f))) d =
      some (-(natOfDigits w : ℤ) * 10 ^ d + natOfDigits f * 10 ^ (d - f.length)) := by
  have hnd : '.' ∉ ('-' :: w) := by
    intro hm
    rcases List.mem_cons.mp hm with hm | hm
    · cases hm
    · exact noDot_of_digits hw hm
  have hs : splitDot ('-' :: (w ++ '.' :: f)) = [('-' :: w), f] := by
    rw [show ('-' :: (w ++ '.' :: f)) = ('-' :: w) ++ '.' :: f from rfl]
    rw [splitDot_append hnd, splitDot_of_not_mem (noDot_of_digits hf)]
  have hnoexp : ∀ c ∈ '-' :: (w ++ '.' :: f), ¬(c = 'e' ∨ c = 'E') := by
    intro c hc he
    rcases List.mem_cons.mp hc with hm | hm
    · subst hm
      rcases he with he | he <;> cases he
    · rcases List.mem_append.mp hm with hm | hm
      · exact noExp_of_digits hw c hm he
      · rcases List.mem_cons.mp hm with hm | hm
        · subst hm
          rcases he with he | he <;> cases he
        · exact noExp_of_digits hf c hm he
  have hnl : ¬(d < f.length) := by omega
  have hpadne : f ++ List.replicate (d - f.length) '0' ≠ [] := by
    intro he
    exact hfne (List.append_eq_nil.mp he).1
  have hpadd : (f ++ List.replicate (d - f.length) '0').all isDig = true := by
    rw [List.all_append, hf, all_isDig_replicate]
    rfl
  rw [format_amount_with_decimals]
  simp only [any_exp_false hnoexp, Bool.false_eq_true, if_false, hs,
    pyIntParse_neg hwne hw, hnl, if_false, pyIntParse_digits hpadne hpadd,
    natOfDigits_pad, Option.map_some']
  push_cast
  ring_nf

theorem format_empty_whole (f : List Char) (d : ℕ) (hf : f.all isDig = true) :
    format_amount_with_decimals (String.mk ('.' :: f)) d = none := by
  have hs : splitDot ('.' :: f) = [([] : List Char), f] := by
    rw [splitDot, if_pos rfl, splitDot_of_not_mem (noDot_of_digits hf)]
  have hnoexp : ∀ c ∈ '.' :: f, ¬(c = 'e' ∨ c = 'E') := by
    intro c hc he
    rcases List.mem_cons.mp hc with hm | hm
    · subst hm
      rcases he with he | he <;> cases he
    · exact noExp_of_digits hf c hm he
  rw [format_amount_with_decimals]
  simp only [any_exp_false hnoexp, Bool.false_eq_true, if_false, hs]
  rfl

theorem format_dotted_zero_decimals (w f : List Char) (hw : w.all isDig = true)
    (hf : f.all isDig = true) :
    format_amount_with_decimals (String.mk (w ++ '.' :: f)) 0 = none := by
  have hdata : (String.mk (w ++ '.' :: f)).data = w ++ '.' :: f := rfl
  have hs : splitDot (w ++ '.' :: f) = [w, f] := by
    rw [splitDot_append (noDot_of_digits hw), splitDot_of_not_mem (noDot_of_digits hf)]
  rw [format_amount_with_decimals]
  simp only [hdata, any_exp_false (noExp_dotted hw hf), Bool.false_eq_true, if_false, hs]
  cases hpw : pyIntParse w with
  | none => rfl
  | some wi =>
    have hempty : (if (0 : ℕ) < f.length then f.take 0
        else f ++ List.replicate (0 - f.length) '0') = [] := by
      by_cases hfe : f = []
      · subst hfe
        simp
      · have : 0 < f.length := List.length_pos.mpr hfe
        rw [if_pos this, List.take_zero]
    simp only [hempty]
    rfl

/-! ### Truncation and tick lemmas -/

theorem ratTrunc_of_nonneg {q : ℚ} (h : 0 ≤ q) : ratTrunc q = ⌊q⌋ := if_pos h

theorem round_tick_spec (t sp : ℤ) (hsp : 0 < sp) :
    sp ∣ round_tick t sp ∧ round_tick t sp ≤ t ∧
      ∀ m : ℤ, sp ∣ m → m ≤ t → m ≤ round_tick t sp := by
  have hfd : Int.fdiv t sp = t / sp := Int.fdiv_eq_ediv t (le_of_lt hsp)
  have hdm := Int.ediv_add_emod t sp
  have hm0 : 0 ≤ t % sp := Int.emod_nonneg t (ne_of_gt hsp)
  have hms : t % sp < sp := Int.emod_lt_of_pos t hsp
  refine ⟨⟨Int.fdiv t sp, by rw [round_tick]; ring⟩, ?_, ?_⟩
  · rw [round_tick, hfd]
    nlinarith [hdm, hm0]
  · intro m hdvd hle
    obtain ⟨c, hc⟩ := hdvd
    rw [round_tick, hfd]
    have hclt : c < t / sp + 1 := by
      by_contra hcge
      push_neg at hcge
      have : sp * (t / sp + 1) ≤ sp * c := by
        exact mul_le_mul_of_nonneg_left hcge (le_of_lt hsp)
      rw [← hc] at this
      nlinarith
    have : c ≤ t / sp := by omega
    calc m = sp * c := hc
      _ ≤ sp * (t / sp) := mul_le_mul_of_nonneg_left this (le_of_lt hsp)
      _ = t / sp * sp := by ring

/-! ### Network resolution helpers -/

theorem supports_network_of (n : Network) (hp : n.protocol_family = "evm")
    (hn : n.chain_id = "1" ∨ n.network_id = "ethereum-mainnet") :
    supports_network n = true := by
  rcases hn with h | h <;> simp [supports_network, hp, h]

theorem get_position_manager_address_ok (n : Network)
    (hn : n.chain_id = "1" ∨ n.network_id = "ethereum-mainnet") :
    get_position_manager_address n = Except.ok POSITION_MANAGER_ADDRESS := by
  by_cases hc : n.chain_id = "1"
  · rw [get_position_manager_address, if_pos hc]
  · rcases hn with h | h
    · exact absurd h hc
    · rw [get_position_manager_address, if_neg hc]
      simp [position_manager_table, h]

theorem get_asset_address_ok (n : Network)
    (hn : n.chain_id = "1" ∨ n.network_id = "ethereum-mainnet") :
    get_asset_address n "weth" = Except.ok WETH_ADDRESS ∧
      get_asset_address n "usdc" = Except.ok USDC_ADDRESS := by
  by_cases hc : n.chain_id = "1"
  · constructor <;> · rw [get_asset_address, if_pos hc]; simp [asset_address_table]
  · rcases hn with h | h
    · exact absurd h hc
    · constructor <;> · rw [get_asset_address, if_neg hc]; simp [asset_address_table, h]

/-! ### Claim theorems -/

/-- C2 (counterexample): the claim says applySlippage returns
floor(amount * (1 - s/100)) for every slippage percentage s, but at
amount = 3, s = 150 (every binary64 operation on this input is exact, so
the code and the rational model agree) the code truncates toward zero and
returns -1 while the floor is -2. -/
theorem uniswap_C2_counterexample :
    calculate_slippage_amounts 3 150 ≠ ⌊(3 : ℚ) * (1 - 150 / 100)⌋ ∧
    calculate_slippage_amounts 3 150 = -1 ∧ ⌊(3 : ℚ) * (1 - 150 / 100)⌋ = -2 := by
  have hval : ((3 : ℤ) : ℚ) * (1 - 150 / 100) = -3 / 2 := by norm_num
  have h2 : calculate_slippage_amounts 3 150 = -1 := by
    rw [calculate_slippage_amounts, hval, ratTrunc, if_neg (by norm_num)]
    rw [Int.ceil_eq_iff]
    constructor <;> norm_num
  have h3 : ⌊(3 : ℚ) * (1 - 150 / 100)⌋ = -2 := by
    rw [show (3 : ℚ) * (1 - 150 / 100) = -3 / 2 from by norm_num]
    norm_num
  exact ⟨by rw [h2, h3]; decide, h2, h3⟩

/-- C2 (amended): for every non-negative amount and every slippage
percentage s with s ≤ 100 the truncation toward zero performed by int()
coincides with the floor, so applySlippage(amount, s) =
floor(amount * (1 - s/100)) (modelling the binary64 arithmetic as exact
rationals); in particular applySlippage(1000000, 0.5) = 995000. -/
theorem uniswap_C2_amended (a : ℤ) (s : ℚ) (ha : 0 ≤ a) (hs : s ≤ 100) :
    calculate_slippage_amounts a s = ⌊(a : ℚ) * (1 - s / 100)⌋ ∧
    calculate_slippage_amounts 1000000 (1 / 2) = 995000 := by
  constructor
  · rw [calculate_slippage_amounts, ratTrunc_of_nonneg]
    apply mul_nonneg (by exact_mod_cast ha)
    have hd : s / 100 ≤ 1 := by linarith
    linarith
  · rw [calculate_slippage_amounts,
      show ((1000000 : ℤ) : ℚ) * (1 - 1 / 2 / 100) = 995000 from by norm_num,
      ratTrunc_of_nonneg (by norm_num)]
    norm_num

theorem uniswap_C2_amended_witness :
    calculate_slippage_amounts 1000000 (1 / 2) = ⌊((1000000 : ℤ) : ℚ) * (1 - 1 / 2 / 100)⌋ ∧
    calculate_slippage_amounts 1000000 (1 / 2) = 995000 :=
  uniswap_C2_amended 1000000 (1 / 2) (by norm_num) (by norm_num)

/-- C8: the tick spacing is derived from the fee tier by 500 -> 10,
3000 -> 60, 10000 -> 200, and any other fee tier falls back to fee tier
500 with spacing 10 (e.g. 7777). -/
theorem uniswap_C8 :
    tick_spacing_for_fee 500 = (10, 500) ∧ tick_spacing_for_fee 3000 = (60, 3000) ∧
    tick_spacing_for_fee 10000 = (200, 10000) ∧
    (∀ fee : ℤ, fee ≠ 500 → fee ≠ 3000 → fee ≠ 10000 →
      tick_spacing_for_fee fee = (10, 500)) ∧
    tick_spacing_for_fee 7777 = (10, 500) := by
  refine ⟨by norm_num [tick_spacing_for_fee], by norm_num [tick_spacing_for_fee],
    by norm_num [tick_spacing_for_fee], ?_, by norm_num [tick_spacing_for_fee]⟩
  intro fee h1 h2 h3
  rw [tick_spacing_for_fee, if_neg h1, if_neg h2, if_neg h3]

theorem uniswap_C8_witness : tick_spacing_for_fee 7777 = (10, 500) :=
  uniswap_C8.2.2.2.1 7777 (by decide) (by decide) (by decide)

/-- C4: in create_liquidity each requested tick is rounded down to the
largest multiple of the (positive) spacing not exceeding it, the upper
tick is then forced to lower + spacing whenever the rounded upper does not
strictly exceed the rounded lower, and the final upper tick is strictly
greater than the final lower tick; the spec's examples (-50, 10) at
spacing 60 -> (-60, 0) and (-60000, 60000) at spacing 60 -> itself hold. -/
theorem uniswap_C4 (tl tu sp : ℤ) (hsp : 0 < sp) :
    (align_ticks tl tu sp).1 = round_tick tl sp ∧
    (sp ∣ round_tick tl sp ∧ round_tick tl sp ≤ tl ∧
      ∀ m : ℤ, sp ∣ m → m ≤ tl → m ≤ round_tick tl sp) ∧
    (sp ∣ round_tick tu sp ∧ round_tick tu sp ≤ tu ∧
      ∀ m : ℤ, sp ∣ m → m ≤ tu → m ≤ round_tick tu sp) ∧
    (align_ticks tl tu sp).2 =
      (if round_tick tu sp ≤ round_tick tl sp then round_tick tl sp + sp
       else round_tick tu sp) ∧
    (align_ticks tl tu sp).1 < (align_ticks tl tu sp).2 ∧
    align_ticks (-50) 10 60 = (-60, 0) ∧
    align_ticks (-60000) 60000 60 = (-60000, 60000) := by
  refine ⟨?_, round_tick_spec tl sp hsp, round_tick_spec tu sp hsp, ?_, ?_, by decide, by decide⟩
  · rw [align_ticks]
    by_cases hc : round_tick tu sp ≤ round_tick tl sp <;> simp [hc]
  · rw [align_ticks]
    by_cases hc : round_tick tu sp ≤ round_tick tl sp <;> simp [hc]
  · rw [align_ticks]
    by_cases hc : round_tick tu sp ≤ round_tick tl sp
    · simp only [hc, if_true]
      omega
    · simp only [hc, if_false]
      push_neg at hc
      exact hc

theorem uniswap_C4_witness :
    (align_ticks (-50) 10 60).1 = round_tick (-50) 60 ∧
    (60 ∣ round_tick (-50) 60 ∧ round_tick (-50) 60 ≤ -50 ∧
      ∀ m : ℤ, 60 ∣ m → m ≤ -50 → m ≤ round_tick (-50) 60) ∧
    (60 ∣ round_tick 10 60 ∧ round_tick 10 60 ≤ 10 ∧
      ∀ m : ℤ, 60 ∣ m → m ≤ 10 → m ≤ round_tick 10 60) ∧
    (align_ticks (-50) 10 60).2 =
      (if round_tick 10 60 ≤ round_tick (-50) 60 then round_tick (-50) 60 + 60
       else round_tick 10 60) ∧
    (align_ticks (-50) 10 60).1 < (align_ticks (-50) 10 60).2 ∧
    align_ticks (-50) 10 60 = (-60, 0) ∧
    align_ticks (-60000) 60000 60 = (-60000, 60000) :=
  uniswap_C4 (-50) 10 60 (by decide)

/-- C10: format_amount_with_decimals accepts negative decimal strings and
adds the (non-negative) fractional atomic units to the scaled negative
whole part, so "-1.5" with 6 decimals yields -500000 rather than the
-1500000 a true value conversion would give. -/
theorem uniswap_C10 (w f : List Char) (d : ℕ) (hw : w.all isDig = true) (hwne : w ≠ [])
    (hf : f.all isDig = true) (hfne : f ≠ []) (hlen : f.length ≤ d) :
    format_amount_with_decimals (String.mk ('-' :: (w ++ '.' :: f))) d =
      some (-(natOfDigits w : ℤ) * 10 ^ d + natOfDigits f * 10 ^ (d - f.length)) ∧
    format_amount_with_decimals "-1.5" 6 = some (-500000) ∧
    (-500000 : ℤ) ≠ -1500000 := by
  refine ⟨format_neg_dotted w f d hw hwne hf hfne hlen, ?_, by decide⟩
  have h := format_neg_dotted ['1'] ['5'] 6 (by decide) (by decide) (by decide) (by decide)
    (by decide)
  rw [show ("-1.5" : String) = String.mk ('-' :: (['1'] ++ '.' :: ['5'])) from rfl, h]
  decide

theorem uniswap_C10_witness :
    format_amount_with_decimals (String.mk ('-' :: (['1'] ++ '.' :: ['5']))) 6 =
      some (-(natOfDigits ['1'] : ℤ) * 10 ^ 6 +
        natOfDigits ['5'] * 10 ^ (6 - (['5'] : List Char).length)) ∧
    format_amount_with_decimals "-1.5" 6 = some (-500000) ∧
    (-500000 : ℤ) ≠ -1500000 :=
  uniswap_C10 ['1'] ['5'] 6 (by decide) (by decide) (by decide) (by decide) (by decide)

/-- C7 (counterexample): the claim says the conversion fails exactly when
the string is not a valid decimal/exponential number, but ".5" is a valid
decimal numeral (the very grammar the code itself accepts through its
exponential branch assigns it the value 1/2) and is nevertheless rejected,
because the split on "." leaves an empty whole part and int("") raises. -/
theorem uniswap_C7_counterexample :
    format_amount_with_decimals ".5" 18 = none ∧
    parseDecimalLit (".5" : String).data = some (1 / 2) := by
  constructor
  · rw [show (".5" : String) = String.mk ('.' :: ['5']) from rfl]
    exact format_empty_whole ['5'] 18 (by decide)
  · have h1 : stripSign ('.' :: ['5']) = (1, '.' :: ['5']) :=
      stripSign_of_head ['5'] (by decide) (by decide)
    have h2 : splitExp ('.' :: ['5']) = ('.' :: ['5'], none) :=
      splitExp_of_not_mem (by decide)
    have hsd : splitDot ('.' :: ['5']) = [([] : List Char), ['5']] := by
      rw [splitDot, if_pos rfl, splitDot_of_not_mem (by decide)]
    have h3 : parseMantissa ('.' :: ['5']) =
        some ((natOfDigits ([] : List Char) : ℚ) +
          (natOfDigits ['5'] : ℚ) / 10 ^ (['5'] : List Char).length) := by
      rw [parseMantissa, hsd]
      have hne : ([] : List Char) ≠ [] ∨ (['5'] : List Char) ≠ [] := Or.inr (by decide)
      show (if (([] : List Char) ≠ [] ∨ (['5'] : List Char) ≠ []) ∧
          ([] : List Char).all isDig = true ∧ (['5'] : List Char).all isDig = true then
          some ((natOfDigits ([] : List Char) : ℚ) +
            (natOfDigits ['5'] : ℚ) / 10 ^ (['5'] : List Char).length)
        else none) = _
      rw [if_pos ⟨hne, by decide, by decide⟩]
    show parseDecimalLit ('.' :: ['5']) = some (1 / 2)
    rw [parseDecimalLit]
    simp only [h1, h2, h3]
    rw [show natOfDigits ([] : List Char) = 0 from rfl,
      show natOfDigits ['5'] = 5 from by decide]
    norm_num

/-- C7 (amended): format_amount_with_decimals parses plain decimal
strings of the shapes digits and digits.digits, truncating (not rounding)
fractional digits beyond the decimal count whenever the decimal count is
at least 1; "0.1" at 18 decimals gives 100000000000000000; but the domain
of accepted strings is the code's grammar rather than all valid decimal
numbers: a dotted string with an empty whole part (such as ".5") is
always rejected, and every dotted string is rejected when the decimal
count is 0. -/
theorem uniswap_C7_amended :
    (∀ w f : List Char, ∀ d : ℕ, w.all isDig = true → w ≠ [] → f.all isDig = true →
      f ≠ [] → 1 ≤ d →
      format_amount_with_decimals (String.mk (w ++ '.' :: f)) d =
        some ⌊((natOfDigits w : ℚ) + (natOfDigits f : ℚ) / 10 ^ f.length) * 10 ^ d⌋) ∧
    (∀ w : List Char, ∀ d : ℕ, w.all isDig = true → w ≠ [] →
      format_amount_with_decimals (String.mk w) d = some ((natOfDigits w : ℤ) * 10 ^ d)) ∧
    format_amount_with_decimals "0.1" 18 = some 100000000000000000 ∧
    (∀ f : List Char, ∀ d : ℕ, f.all isDig = true →
      format_amount_with_decimals (String.mk ('.' :: f)) d = none) ∧
    (∀ w f : List Char, w.all isDig = true → f.all isDig = true →
      format_amount_with_decimals (String.mk (w ++ '.' :: f)) 0 = none) := by
  refine ⟨fun w f d hw hwne hf hfne hd => format_dotted_floor w f d hw hwne hf hfne hd,
    fun w d hw hwne => format_plain_digits w d hw hwne, ?_,
    fun f d hf => format_empty_whole f d hf,
    fun w f hw hf => format_dotted_zero_decimals w f hw hf⟩
  have h := format_dotted_pad ['0'] ['1'] 18 (by decide) (by decide) (by decide) (by decide)
    (by decide)
  rw [show ("0.1" : String) = String.mk (['0'] ++ '.' :: ['1']) from rfl, h]
  decide

theorem uniswap_C7_amended_witness :
    format_amount_with_decimals (String.mk (['0'] ++ '.' :: ['1'])) 18 =
      some ⌊((natOfDigits ['0'] : ℚ) +
        (natOfDigits ['1'] : ℚ) / 10 ^ (['1'] : List Char).length) * 10 ^ 18⌋ :=
  uniswap_C7_amended.1 ['0'] ['1'] 18 (by decide) (by decide) (by decide) (by decide)
    (by decide)

/-- C3 (counterexample): the round trip does not preserve truncated values
for negative inputs: "-1.5" at 6 decimals converts to -500000 atomic
units, which converts back to "-0.5" (value -1/2), while "-1.5" truncated
to 6 fractional digits is -3/2. -/
theorem uniswap_C3_counterexample :
    format_amount_with_decimals "-1.5" 6 = some (-500000) ∧
    format_amount_from_decimals (-500000) 6 = "-0.5" ∧
    parseDecimalLit ("-0.5" : String).data = some (-(1 / 2)) ∧
    parseDecimalLit ("-1.5" : String).data = some (-(3 / 2)) ∧
    (-(1 / 2) : ℚ) ≠ -(3 / 2) := by
  have hneg15 : format_amount_with_decimals "-1.5" 6 = some (-500000) := by
    have h := format_neg_dotted ['1'] ['5'] 6 (by decide) (by decide) (by decide) (by decide)
      (by decide)
    rw [show ("-1.5" : String) = String.mk ('-' :: (['1'] ++ '.' :: ['5'])) from rfl, h]
    decide
  have hrender : format_amount_from_decimals (-500000) 6 = "-0.5" := by rfl
  have hparse1 : parseDecimalLit ("-0.5" : String).data = some (-(1 / 2)) := by
    show parseDecimalLit ('-' :: (['0'] ++ '.' :: ['5'])) = some (-(1 / 2))
    rw [parseDecimalLit]
    have h1 : stripSign ('-' :: (['0'] ++ '.' :: ['5'])) = (-1, ['0'] ++ '.' :: ['5']) := by
      rw [stripSign, if_pos rfl]
    have h2 : splitExp (['0'] ++ '.' :: ['5']) = (['0'] ++ '.' :: ['5'], none) :=
      splitExp_of_not_mem (by decide)
    have h3 := parseMantissa_dotted (w := ['0']) (f := ['5']) (by decide) (by decide)
      (Or.inl (by decide))
    simp only [h1, h2, h3]
    rw [show natOfDigits ['0'] = 0 from by decide, show natOfDigits ['5'] = 5 from by decide]
    norm_num
  have hparse2 : parseDecimalLit ("-1.5" : String).data = some (-(3 / 2)) := by
    show parseDecimalLit ('-' :: (['1'] ++ '.' :: ['5'])) = some (-(3 / 2))
    rw [parseDecimalLit]
    have h1 : stripSign ('-' :: (['1'] ++ '.' :: ['5'])) = (-1, ['1'] ++ '.' :: ['5']) := by
      rw [stripSign, if_pos rfl]
    have h2 : splitExp (['1'] ++ '.' :: ['5']) = (['1'] ++ '.' :: ['5'], none) :=
      splitExp_of_not_mem (by decide)
    have h3 := parseMantissa_dotted (w := ['1']) (f := ['5']) (by decide) (by decide)
      (Or.inl (by decide))
    simp only [h1, h2, h3]
    rw [show natOfDigits ['1'] = 1 from by decide, show natOfDigits ['5'] = 5 from by decide]
    norm_num
  exact ⟨hneg15, hrender, hparse1, hparse2, by norm_num⟩

/-- C3 (amended): for non-negative plain decimal strings (nonempty digit
whole part, nonempty digit fraction, decimal count at least 1; integral
digit strings likewise), with the atomic result inside the
28-significant-digit exactness range of the Decimal arithmetic and the
truncated value at least 10^-6 (so that the string renders positionally),
converting to atomic units and back yields a string whose numeric value is
exactly the input truncated (not rounded) to the given number of
fractional digits.  The positional restriction is forced by the code: for
values below 10^-6 the string is scientific notation, and the trailing
rstrip of the code corrupts any dotted mantissa whose exponent ends in 0,
e.g. 15 atomic units at 11 decimals render as "1.5E-1" (value 3/20, not
the truncated 15/10^11). -/
theorem uniswap_C3_amended (w f : List Char) (d : ℕ) (hw : w.all isDig = true)
    (hwne : w ≠ []) (hf : f.all isDig = true) (hfne : f ≠ []) (hd : 1 ≤ d)
    (_hprec : ⌊((natOfDigits w : ℚ) + (natOfDigits f : ℚ) / 10 ^ f.length) * 10 ^ d⌋ < 10 ^ 28)
    (hpos : (10 : ℤ) ^ d ≤ 10 ^ 6 * ⌊((natOfDigits w : ℚ) + (natOfDigits f : ℚ) / 10 ^ f.length) * 10 ^ d⌋) :
    (format_amount_with_decimals (String.mk (w ++ '.' :: f)) d =
      some ⌊((natOfDigits w : ℚ) + (natOfDigits f : ℚ) / 10 ^ f.length) * 10 ^ d⌋ ∧
    parseDecimalLit (format_amount_from_decimals
        ⌊((natOfDigits w : ℚ) + (natOfDigits f : ℚ) / 10 ^ f.length) * 10 ^ d⌋ d).data =
      some ((⌊((natOfDigits w : ℚ) + (natOfDigits f : ℚ) / 10 ^ f.length) * 10 ^ d⌋ : ℚ) /
        10 ^ d)) ∧
    (format_amount_with_decimals (String.mk w) d = some ((natOfDigits w : ℤ) * 10 ^ d) ∧
    parseDecimalLit (format_amount_from_decimals ((natOfDigits w : ℤ) * 10 ^ d) d).data =
      some (((natOfDigits w : ℤ) * 10 ^ d : ℤ) / (10 ^ d : ℚ))) ∧
    (format_amount_from_decimals 15 11 = "1.5E-1" ∧
    parseDecimalLit ("1.5E-1" : String).data = some (3 / 20) ∧
    (3 / 20 : ℚ) ≠ (15 : ℚ) / 10 ^ 11) := by
  have hfl1 : 0 < ⌊((natOfDigits w : ℚ) + (natOfDigits f : ℚ) / 10 ^ f.length) * 10 ^ d⌋ := by
    by_contra hle
    push_neg at hle
    have h2 : 10 ^ 6 * ⌊((natOfDigits w : ℚ) + (natOfDigits f : ℚ) / 10 ^ f.length) * 10 ^ d⌋ ≤ 0 :=
      mul_nonpos_of_nonneg_of_nonpos (by norm_num) hle
    have h3 : (0 : ℤ) < 10 ^ d := by positivity
    linarith
  refine ⟨⟨format_dotted_floor w f d hw hwne hf hfne hd,
    parse_format_amount_from_decimals _ d hfl1 hpos⟩,
    ⟨format_plain_digits w d hw hwne, ?_⟩, ?_, ?_, by norm_num⟩
  · by_cases hw0 : natOfDigits w = 0
    · rw [hw0]
      simp only [Nat.cast_zero, zero_mul]
      rw [parse_format_zero d]
      norm_num
    · have hw1 : (1 : ℤ) ≤ (natOfDigits w : ℤ) := by
        exact_mod_cast Nat.one_le_iff_ne_zero.mpr hw0
      have hapos : (0 : ℤ) < (natOfDigits w : ℤ) * 10 ^ d :=
        mul_pos (by linarith) (by positivity)
      have h1 : (1 : ℤ) ≤ 10 ^ 6 * (natOfDigits w : ℤ) :=
        calc (1 : ℤ) ≤ (natOfDigits w : ℤ) := hw1
          _ ≤ 10 ^ 6 * (natOfDigits w : ℤ) :=
            le_mul_of_one_le_left (by linarith) (by norm_num)
      have haposle : (10 : ℤ) ^ d ≤ 10 ^ 6 * ((natOfDigits w : ℤ) * 10 ^ d) :=
        calc (10 : ℤ) ^ d = 1 * 10 ^ d := (one_mul _).symm
          _ ≤ (10 ^ 6 * (natOfDigits w : ℤ)) * 10 ^ d :=
            mul_le_mul_of_nonneg_right h1 (by positivity)
          _ = 10 ^ 6 * ((natOfDigits w : ℤ) * 10 ^ d) := by ring
      exact parse_format_amount_from_decimals _ d hapos haposle
  · rfl
  · have h := parseDecimalLit_sci_dotted (w := ['1']) (f := ['5']) (e := ['1'])
      (by decide) (by decide) (by decide) (by decide) (by decide)
    show parseDecimalLit (['1'] ++ '.' :: ['5'] ++ 'E' :: '-' :: ['1']) = some (3 / 20)
    rw [h, show natOfDigits ['1'] = 1 from by decide,
      show natOfDigits ['5'] = 5 from by decide,
      show (['5'] : List Char).length = 1 from rfl]
    norm_num

theorem uniswap_C3_amended_witness :
    format_amount_with_decimals (String.mk (['1'] ++ '.' :: ['5'])) 6 =
      some ⌊((natOfDigits ['1'] : ℚ) + (natOfDigits ['5'] : ℚ) / 10 ^ (['5'] : List Char).length) * 10 ^ 6⌋ ∧
    parseDecimalLit (format_amount_from_decimals
        ⌊((natOfDigits ['1'] : ℚ) + (natOfDigits ['5'] : ℚ) / 10 ^ (['5'] : List Char).length) * 10 ^ 6⌋ 6).data =
      some ((⌊((natOfDigits ['1'] : ℚ) + (natOfDigits ['5'] : ℚ) / 10 ^ (['5'] : List Char).length) * 10 ^ 6⌋ : ℚ) / 10 ^ 6) :=
  (uniswap_C3_amended ['1'] ['5'] 6 (by decide) (by decide) (by decide) (by decide)
    (by norm_num)
    (by
      have h1 : ((natOfDigits ['1'] : ℚ) + (natOfDigits ['5'] : ℚ) / 10 ^ (['5'] : List Char).length) * 10 ^ 6 = 1500000 := by
        rw [show natOfDigits ['1'] = 1 from by decide,
          show natOfDigits ['5'] = 5 from by decide,
          show (['5'] : List Char).length = 1 from rfl]
        norm_num
      rw [h1, show ⌊(1500000 : ℚ)⌋ = 1500000 from by norm_num]
      norm_num)
    (by
      have h1 : ((natOfDigits ['1'] : ℚ) + (natOfDigits ['5'] : ℚ) / 10 ^ (['5'] : List Char).length) * 10 ^ 6 = 1500000 := by
        rw [show natOfDigits ['1'] = 1 from by decide,
          show natOfDigits ['5'] = 5 from by decide,
          show (['5'] : List Char).length = 1 from rfl]
        norm_num
      rw [h1, show ⌊(1500000 : ℚ)⌋ = 1500000 from by norm_num]
      norm_num)).1


/-! ### get_price reduction on the canonical network -/

theorem get_price_run_good (fee : ℤ) (o : PriceOracle)
    (hn : o.network.network_id = "ethereum-mainnet")
    (hsup : supports_network o.network = true) :
    get_price_run fee o =
      (match o.getPool with
      | Except.error e =>
        (⟨Except.ok ("Error: Failed to fetch pool address: " ++ e), false⟩ : PriceOut)
      | Except.ok pool_address =>
        if pool_address = ZERO_ADDRESS then
          ⟨Except.ok ("Error: No pool found for fee tier " ++ toString fee), false⟩
        else
          match o.slot0 with
          | Except.error e => ⟨Except.ok ("Error fetching pool state (slot0): " ++ e), true⟩
          | Except.ok s0 =>
            ⟨Except.ok ("Current WETH/USDC price: " ++ formatFixed6 (priceOfSqrt s0.1) ++
              " USDC per WETH (tick: " ++ toString s0.2 ++ ")"), true⟩) := by
  rw [get_price_run,
    if_neg (fun h => by rw [hsup] at h; exact Bool.noConfusion h),
    (get_asset_address_ok o.network (Or.inr hn)).1,
    (get_asset_address_ok o.network (Or.inr hn)).2, hn,
    show factory_address_table "ethereum-mainnet" = some FACTORY_ADDRESS from rfl]

/-- C6: on the canonical network, whenever the factory getPool read fails
get_price returns the fetch-failure error string, and whenever it returns
the zero address get_price returns the no-pool-found error string; in
both cases the pool contract's slot0 is never consulted (slot0_called is
false). -/
theorem uniswap_C6 (fee : ℤ) (o : PriceOracle)
    (hn : o.network.network_id = "ethereum-mainnet")
    (hp : o.network.protocol_family = "evm") :
    (∀ e, o.getPool = Except.error e →
      get_price_run fee o =
        ⟨Except.ok ("Error: Failed to fetch pool address: " ++ e), false⟩) ∧
    (o.getPool = Except.ok ZERO_ADDRESS →
      get_price_run fee o =
        ⟨Except.ok ("Error: No pool found for fee tier " ++ toString fee), false⟩) := by
  have hsup : supports_network o.network = true := supports_network_of o.network hp (Or.inr hn)
  have hred := get_price_run_good fee o hn hsup
  constructor
  · intro e he
    rw [hred, he]
  · intro he
    rw [hred, he]
    show (if ZERO_ADDRESS = ZERO_ADDRESS then _ else _) = _
    rw [if_pos rfl]

theorem uniswap_C6_witness :
    (∀ e, (⟨⟨"evm", "1", "ethereum-mainnet"⟩, Except.ok ZERO_ADDRESS,
        Except.ok (0, 0)⟩ : PriceOracle).getPool = Except.error e →
      get_price_run 3000 ⟨⟨"evm", "1", "ethereum-mainnet"⟩, Except.ok ZERO_ADDRESS,
        Except.ok (0, 0)⟩ =
        ⟨Except.ok ("Error: Failed to fetch pool address: " ++ e), false⟩) ∧
    ((⟨⟨"evm", "1", "ethereum-mainnet"⟩, Except.ok ZERO_ADDRESS,
        Except.ok (0, 0)⟩ : PriceOracle).getPool = Except.ok ZERO_ADDRESS →
      get_price_run 3000 ⟨⟨"evm", "1", "ethereum-mainnet"⟩, Except.ok ZERO_ADDRESS,
        Except.ok (0, 0)⟩ =
        ⟨Except.ok ("Error: No pool found for fee tier " ++ toString (3000 : ℤ)), false⟩) :=
  uniswap_C6 3000 ⟨⟨"evm", "1", "ethereum-mainnet"⟩, Except.ok ZERO_ADDRESS,
    Except.ok (0, 0)⟩ rfl rfl

/-- C9: the spot price computed by get_price equals
(sqrtPriceX96 / 2^96)^2 * 10^(decimals_weth - decimals_usdc) with
decimals 18 and 6, i.e. a scaling by 10^12; when sqrtPriceX96 encodes the
raw price ratio 1.0 (sqrtPriceX96 = 2^96) the price is exactly 10^12; and
on a successful read the handler returns the message built from exactly
this price. -/
theorem uniswap_C9 :
    (∀ s : ℤ, priceOfSqrt s = ((s : ℚ) / 2 ^ 96) ^ 2 * 10 ^ (12 : ℕ)) ∧
    priceOfSqrt (2 ^ 96) = 10 ^ (12 : ℕ) ∧
    (∀ fee : ℤ, ∀ o : PriceOracle, ∀ pool : String, ∀ s t : ℤ,
      o.network.network_id = "ethereum-mainnet" → o.network.protocol_family = "evm" →
      o.getPool = Except.ok pool → pool ≠ ZERO_ADDRESS → o.slot0 = Except.ok (s, t) →
      get_price_run fee o = ⟨Except.ok ("Current WETH/USDC price: " ++
        formatFixed6 (priceOfSqrt s) ++ " USDC per WETH (tick: " ++ toString t ++ ")"),
        true⟩) := by
  have hw18 : ASSET_DECIMALS "weth" = 18 := rfl
  have hu6 : ASSET_DECIMALS "usdc" = 6 := rfl
  have hmain : ∀ s : ℤ, priceOfSqrt s = ((s : ℚ) / 2 ^ 96) ^ 2 * 10 ^ (12 : ℕ) := by
    intro s
    rw [priceOfSqrt, hw18, hu6]
    norm_num
  refine ⟨hmain, ?_, ?_⟩
  · rw [hmain]
    push_cast
    norm_num
  · intro fee o pool s t hn hp hpool hz hslot
    have hsup : supports_network o.network = true :=
      supports_network_of o.network hp (Or.inr hn)
    rw [get_price_run_good fee o hn hsup, hpool]
    show (if pool = ZERO_ADDRESS then _ else _) = _
    rw [if_neg hz, hslot]

theorem uniswap_C9_witness :
    get_price_run 3000
      ⟨⟨"evm", "1", "ethereum-mainnet"⟩, Except.ok "0xPOOL", Except.ok (2 ^ 96, 0)⟩ =
      ⟨Except.ok ("Current WETH/USDC price: " ++
        formatFixed6 (priceOfSqrt (2 ^ 96)) ++ " USDC per WETH (tick: " ++
        toString (0 : ℤ) ++ ")"), true⟩ :=
  uniswap_C9.2.2 3000
    ⟨⟨"evm", "1", "ethereum-mainnet"⟩, Except.ok "0xPOOL", Except.ok (2 ^ 96, 0)⟩
    "0xPOOL" (2 ^ 96) 0 rfl rfl rfl (by decide) rfl

/-- C1 (counterexample): the claim says every error inside get_price is
converted to an error string, but the factory-address dict lookup sits
outside every try block: a wallet reporting chain id "1" with network id
"mainnet" passes the support check and the (chain-id-keyed) asset
resolution, and then the lookup raises KeyError, which propagates to the
caller. -/
theorem uniswap_C1_counterexample :
    (get_price_run 3000
      ⟨⟨"evm", "1", "mainnet"⟩, Except.ok "0xPOOL", Except.ok (0, 0)⟩).result =
      Except.error ("KeyError: " ++ "mainnet") := rfl

/-- C1 (amended): create_liquidity never lets an exception escape — for
every argument record and every wallet behaviour its outermost except
clause yields a string result; get_price converts asset-resolution,
getPool and slot0 failures to strings and never raises when the wallet's
network id is the table key "ethereum-mainnet", but (as the
counterexample shows) it can raise for other network ids. -/
theorem uniswap_C1_amended :
    (∀ args : CreateArgs, ∀ o : LiquidityOracle,
      (create_liquidity_run args o).result.isOk = true) ∧
    (∀ fee : ℤ, ∀ o : PriceOracle, o.network.network_id = "ethereum-mainnet" →
      (get_price_run fee o).result.isOk = true) := by
  constructor
  · intro args o
    rw [create_liquidity_run]
    cases h : (create_liquidity_body args o).result <;> simp [h, Except.isOk, Except.toBool]
  · intro fee o hn
    cases hsup : supports_network o.network with
    | false =>
      rw [get_price_run, if_pos hsup]
      rfl
    | true =>
      rw [get_price_run_good fee o hn hsup]
      cases hp : o.getPool with
      | error e => rfl
      | ok pool =>
        dsimp only
        by_cases hz : pool = ZERO_ADDRESS
        · rw [if_pos hz]
          rfl
        · rw [if_neg hz]
          cases hs : o.slot0 with
          | error e => rfl
          | ok s0 => rfl

theorem uniswap_C1_amended_witness :
    (get_price_run 3000
      ⟨⟨"evm", "1", "ethereum-mainnet"⟩, Except.ok "0xPOOL",
        Except.ok (0, 0)⟩).result.isOk = true :=
  uniswap_C1_amended.2 3000
    ⟨⟨"evm", "1", "ethereum-mainnet"⟩, Except.ok "0xPOOL", Except.ok (0, 0)⟩ rfl

/-- C5: when the network is supported and both amounts parse, if the WETH
balance read from the wallet is below the requested atomic amount (or the
WETH balance suffices but the USDC balance is below its requested
amount), create_liquidity returns the insufficient-balance error string
carrying the balance formatted via format_amount_from_decimals, and the
submitted-transaction trace is empty: no approval and no mint is ever
sent. -/
theorem uniswap_C5 (args : CreateArgs) (o : LiquidityOracle) (aw au bw bu : ℤ)
    (hp : o.network.protocol_family = "evm")
    (hn : o.network.chain_id = "1" ∨ o.network.network_id = "ethereum-mainnet")
    (haw : format_amount_with_decimals args.amount_weth 18 = some aw)
    (hau : format_amount_with_decimals args.amount_usdc 6 = some au)
    (hbw : o.wethBalance = Except.ok bw)
    (hbu : o.usdcBalance = Except.ok bu) :
    (bw < aw → create_liquidity_run args o =
      ⟨Except.ok ("Error: Insufficient WETH balance. You have " ++
        format_amount_from_decimals bw 18 ++ " WETH, but need " ++ args.amount_weth ++
        " WETH"), []⟩) ∧
    (aw ≤ bw → bu < au → create_liquidity_run args o =
      ⟨Except.ok ("Error: Insufficient USDC balance. You have " ++
        format_amount_from_decimals bu 6 ++ " USDC, but need " ++ args.amount_usdc ++
        " USDC"), []⟩) := by
  have hsup : supports_network o.network = true := supports_network_of o.network hp hn
  have hpm := get_position_manager_address_ok o.network hn
  have hwa := (get_asset_address_ok o.network hn).1
  have hua := (get_asset_address_ok o.network hn).2
  have hw18 : ASSET_DECIMALS "weth" = 18 := rfl
  have hu6 : ASSET_DECIMALS "usdc" = 6 := rfl
  constructor
  · intro hlt
    have hbody : create_liquidity_body args o =
        ⟨Except.ok ("Error: Insufficient WETH balance. You have " ++
          format_amount_from_decimals bw 18 ++ " WETH, but need " ++ args.amount_weth ++
          " WETH"), []⟩ := by
      rw [create_liquidity_body,
        if_neg (fun h => by rw [hsup] at h; exact Bool.noConfusion h),
        hpm, hwa, hua, hw18, hu6, haw, hau, hbw, hbu]
      dsimp only
      rw [if_pos hlt]
    rw [create_liquidity_run, hbody]
  · intro hge hltu
    have hbody : create_liquidity_body args o =
        ⟨Except.ok ("Error: Insufficient USDC balance. You have " ++
          format_amount_from_decimals bu 6 ++ " USDC, but need " ++ args.amount_usdc ++
          " USDC"), []⟩ := by
      rw [create_liquidity_body,
        if_neg (fun h => by rw [hsup] at h; exact Bool.noConfusion h),
        hpm, hwa, hua, hw18, hu6, haw, hau, hbw, hbu]
      dsimp only
      rw [if_neg (not_lt.mpr hge), if_pos hltu]
    rw [create_liquidity_run, hbody]

theorem uniswap_C5_witness :
    create_liquidity_run ⟨"1", "1", -60000, 60000, 3000, 1 / 2⟩
      ⟨⟨"evm", "1", "ethereum-mainnet"⟩, Except.ok 0, Except.ok 0, Except.ok "0xa",
        Except.ok "0xb", Except.ok "0xc", Except.ok ⟨1, []⟩⟩ =
      ⟨Except.ok ("Error: Insufficient WETH balance. You have " ++
        format_amount_from_decimals 0 18 ++ " WETH, but need " ++ "1" ++ " WETH"), []⟩ :=
  (uniswap_C5 ⟨"1", "1", -60000, 60000, 3000, 1 / 2⟩
    ⟨⟨"evm", "1", "ethereum-mainnet"⟩, Except.ok 0, Except.ok 0, Except.ok "0xa",
      Except.ok "0xb", Except.ok "0xc", Except.ok ⟨1, []⟩⟩
    (10 ^ 18) (10 ^ 6) 0 0 rfl (Or.inl rfl) (by decide) (by decide) rfl rfl).1 (by decide)
